import Mathlib

/-!
# Verification of agentscope-extensions-nacos core behaviours

Shallow embedding, in Lean 4, of the configuration-synchronization,
lifecycle-management and A2A message-conversion logic of the
agentscope-extensions-nacos repository, together with proofs and
refutations of the stated behavioural properties.

Sources embedded (python package `agentscope_extension_nacos`):
* `utils.py`            — `validate_agent_name`, `AsyncRWLock`
* `model/nacos_chat_model.py` — `NacosChatModel._ensure_initialized`,
  `_async_init`, `generate_chat_model`, `AutoFormatter`
* `nacos_react_agent.py` — `NacosAgentListener` guards and prompt init
* `mcp/agentscope_nacos_mcp.py` — tool listing, enabling, metadata diff
* `a2a/a2a_agent.py`    — `reply` stream handling and message conversion
-/

namespace NacosExt

/-! ## `utils.validate_agent_name`

The python function, in order:
1. rejects an empty string;
2. replaces every space with an underscore;
3. rejects a result longer than 128 characters;
4. rejects a result not matched by `re.match(r'^[a-zA-Z0-9._:-]+$', s)`.

Strings are embedded as `List Char`.  Python's `[a-zA-Z0-9]` is the ASCII
ranges, which is exactly Lean's `Char.isAlpha` / `Char.isDigit`.
-/

/-- One character of the class `[a-zA-Z0-9._:-]` of the validation regex. -/
def validChar (c : Char) : Bool :=
  c.isAlpha || c.isDigit || c == '.' || c == ':' || c == '_' || c == '-'

/-- `agent_name.replace(' ', '_')`. -/
def replaceSpaces (s : List Char) : List Char :=
  s.map (fun c => if c = ' ' then '_' else c)

/-- Semantics of python `re.match(r'^[a-zA-Z0-9._:-]+$', s)` as a boolean.

In python's `re`, `$` matches at the end of the string *or just before a
newline at the end of the string*, so the pattern accepts one optional
trailing `'\n'` after a non-empty run of class characters. -/
def pyClassPlusMatch (s : List Char) : Bool :=
  (!s.isEmpty && s.all validChar)
    || (s.getLast? == some '\n' && !s.dropLast.isEmpty
          && s.dropLast.all validChar)

/-- `utils.validate_agent_name`: empty check, space replacement, length
check, regex check, in the source's order; `ValueError` becomes
`Except.error` carrying the error message. -/
def validate_agent_name (agent_name : List Char) : Except String (List Char) :=
  if agent_name.isEmpty then
    .error "Agent name cannot be empty"
  else
    let replaced := replaceSpaces agent_name
    if replaced.length > 128 then
      .error "Agent name cannot exceed 128 characters"
    else if !pyClassPlusMatch replaced then
      .error "Agent name can only contain letters, digits and . : _ -"
    else
      .ok replaced

/-! ## `model/nacos_chat_model.py` data and constructor -/

/-- The provider tag selected by `NacosChatModel.generate_chat_model`'s
`if`/`elif` chain. -/
inductive ProviderTag where
  | anthropic
  | ollama
  | gemini
  | dashscope
  | openai
  deriving DecidableEq, Repr

/-- `NacosChatModel.generate_chat_model`, reduced to the provider dispatch:
which provider class is constructed for a given `model_provider` string,
or the `Unknown model provider` error. -/
def generate_chat_model (model_provider : String) : Except String ProviderTag :=
  if model_provider = "anthropic" then .ok .anthropic
  else if model_provider = "ollama" then .ok .ollama
  else if model_provider = "gemini" then .ok .gemini
  else if model_provider = "dashscope" then .ok .dashscope
  else if model_provider = "openai" then .ok .openai
  else .error ("Unknown model provider " ++ model_provider)

/-- The formatter instances stored in `AutoFormatter.formatter_dict`. -/
inductive FormatterVal where
  | dashScopeChat
  | geminiChat
  | ollamaChat
  | anthropicChat
  | openAIChat
  | dashScopeMulti
  | geminiMulti
  | ollamaMulti
  | anthropicMulti
  | openAIMulti
  deriving DecidableEq, Repr

/-- `AutoFormatter.__init__`: the dictionary
`formatter_dict[str(if_multi_agent)]`, keyed by provider string.  Note the
key is spelled `dashScope` with a capital `S`. -/
def formatter_dict (if_multi_agent : Bool) : List (String × FormatterVal) :=
  if if_multi_agent then
    [("dashScope", .dashScopeMulti), ("gemini", .geminiMulti),
     ("ollama", .ollamaMulti), ("anthropic", .anthropicMulti),
     ("openai", .openAIMulti)]
  else
    [("dashScope", .dashScopeChat), ("gemini", .geminiChat),
     ("ollama", .ollamaChat), ("anthropic", .anthropicChat),
     ("openai", .openAIChat)]

/-- `AutoFormatter.get_formatter`:
`formatter_dict[str(if_multi_agent)].get(provider, formatter_dict[...]["openai"])`. -/
def get_formatter (if_multi_agent : Bool) (model_provider : String) :
    FormatterVal :=
  match (formatter_dict if_multi_agent).find? (fun kv => kv.1 == model_provider) with
  | some kv => kv.2
  | none => if if_multi_agent then .openAIMulti else .openAIChat

/-- The fields of `NacosChatModel` that its constructor initializes and
that the later behaviour depends on. -/
structure NacosChatModelState where
  agent_name : List Char
  initialized : Bool
  initializing : Bool
  model_provider : String
  deriving Repr, DecidableEq

/-- `NacosChatModel.__init__`: validates `agent_name` (a `ValueError`
from `validate_agent_name` propagates, so construction fails), then sets
the lazy-init flags false and the default provider `"openai"`. -/
def NacosChatModel.construct (agent_name : List Char) :
    Except String NacosChatModelState :=
  match validate_agent_name agent_name with
  | .error e => .error e
  | .ok validated =>
      .ok { agent_name := validated, initialized := false,
            initializing := false, model_provider := "openai" }

/-! ## `nacos_react_agent.NacosAgentListener`: attach/detach/getters

The listener swaps four fields on a live `ReActAgent`; those four fields
are the only agent state the embedded operations read or write.  The
model, formatter and toolkit instances are abstracted to numeric handles
(their identity is all that attach/detach moves around). -/

/-- The four fields of a `ReActAgent` that `attach_agent`/`detach_agent`
save, substitute and restore. -/
structure ReActAgentFields where
  sys_prompt : String
  toolkit : Option Nat
  model : Nat
  formatter : Nat
  deriving Repr, DecidableEq

/-- The `NacosAgentListener` state relevant to the guard behaviour:
initialization flag, listen flags, the managed prompt/model/formatter/
toolkit, the attached agent and the recorded pre-attach values. -/
structure ListenerState where
  initialized : Bool
  listen_prompt : Bool
  listen_mcp_server : Bool
  listen_chat_model : Bool
  prompt : String
  chat_model : Nat
  formatter : Nat
  toolkit : Nat
  agent : Option ReActAgentFields
  original_prompt : Option String
  original_toolkit : Option (Option Nat)
  original_model : Option Nat
  original_formatter : Option Nat
  deriving Repr, DecidableEq

/-- `NacosAgentListener.__init__` (the fields above): everything starts
uninitialized / empty. -/
def NacosAgentListener.construct (listen_prompt listen_mcp_server
    listen_chat_model : Bool) : ListenerState :=
  { initialized := false, listen_prompt := listen_prompt,
    listen_mcp_server := listen_mcp_server,
    listen_chat_model := listen_chat_model, prompt := "", chat_model := 0,
    formatter := 0, toolkit := 0, agent := none, original_prompt := none,
    original_toolkit := none, original_model := none,
    original_formatter := none }

/-- The error message raised by the guarded entry points. -/
def notInitializedMsg : String :=
  "NacosAgentListener not initialized. Call await listener.initialize() first."

/-- `NacosAgentListener.attach_agent`: raises `RuntimeError` unless
initialized; otherwise records the agent's four fields and substitutes
the managed prompt / toolkit / model+formatter per the listen flags. -/
def attach_agent (st : ListenerState) (agent : ReActAgentFields) :
    Except String ListenerState :=
  if !st.initialized then
    .error notInitializedMsg
  else
    let st1 := { st with
      agent := some agent
      original_prompt := some agent.sys_prompt
      original_toolkit := some agent.toolkit
      original_model := some agent.model
      original_formatter := some agent.formatter }
    let ag1 := if st.listen_prompt then
                 { agent with sys_prompt := st.prompt } else agent
    let ag2 := if st.listen_mcp_server ∧ ag1.toolkit ≠ none then
                 { ag1 with toolkit := some st.toolkit } else ag1
    let ag3 := if st.listen_chat_model then
                 { ag2 with
                   model := st.chat_model
                   formatter := st.formatter } else ag2
    .ok { st1 with agent := some ag3 }

/-- `NacosAgentListener.detach_agent`.  Its docstring says
`Raises: RuntimeError: If listener is not initialized`, but the body has
no such check: it always restores the recorded fields into the detached
agent (a no-op on `None`) and clears the recorded values.  The `Except`
result type mirrors the other entry points; the body never produces
`.error`. -/
def detach_agent (st : ListenerState) :
    Except String (ListenerState × Option ReActAgentFields) :=
  let agent := st.agent
  let restored := agent.map fun a =>
    { a with
      model := st.original_model.getD a.model
      formatter := st.original_formatter.getD a.formatter
      toolkit := st.original_toolkit.getD a.toolkit
      sys_prompt := st.original_prompt.getD a.sys_prompt }
  .ok ({ st with
         agent := none
         original_model := none
         original_prompt := none
         original_toolkit := none
         original_formatter := none }, restored)

/-- `NacosAgentListener.get_model_and_formatter`: guarded getter. -/
def get_model_and_formatter (st : ListenerState) :
    Except String (Nat × Nat) :=
  if !st.initialized then .error notInitializedMsg
  else .ok (st.chat_model, st.formatter)

/-- `NacosAgentListener.get_toolkit`: guarded getter. -/
def get_toolkit (st : ListenerState) : Except String Nat :=
  if !st.initialized then .error notInitializedMsg
  else .ok st.toolkit

/-- `NacosAgentListener.get_prompt`: guarded getter. -/
def get_prompt (st : ListenerState) : Except String String :=
  if !st.initialized then .error notInitializedMsg
  else .ok st.prompt

/-! ## Config-absence behaviour during first initialization

`NacosChatModel._async_init` fetches `model.json`; an absent or empty
payload raises.  `NacosAgentListener._init_listen_prompt` fetches
`prompt.json`; an absent or empty payload registers the config listener
and returns.  JSON decoding is an external library call and is passed in
as a parse function; the remote fetch results are passed in as values. -/

/-- Decoded `model.json`: `modelName` required, the rest defaulted by
`.get`. -/
structure ModelConfig where
  modelName : String
  apiKey : String
  modelProvider : String
  baseUrl : String
  deriving Repr, DecidableEq

/-- What `NacosChatModel._async_init` establishes on success: the loaded
spec and the registered `model.json` config listener. -/
structure ModelInitResult where
  spec : ModelConfig
  listeners : List (String × String)
  deriving Repr, DecidableEq

/-- `NacosChatModel._async_init` over the fetched `model.json` payload.
`parse` stands for `json.loads` plus the `modelName`
key access (`none` = malformed payload, which raises);
`constructModel` stands for `generate_chat_model` on the parsed spec
(its failure falls back to the backup model if present, else raises). -/
def model_async_init (group : String) (fetched : Option String)
    (parse : String → Option ModelConfig)
    (constructModelOk : ModelConfig → Bool) (hasBackup : Bool) :
    Except String ModelInitResult :=
  match fetched with
  | none => .error "No model config found for agent"
  | some raw =>
    if raw.length = 0 then .error "No model config found for agent"
    else
      match parse raw with
      | none => .error "malformed model config"
      | some spec =>
        if constructModelOk spec ∨ hasBackup then
          .ok { spec := spec, listeners := [("model.json", group)] }
        else
          .error "Failed to create chat model for agent"

/-- `NacosChatModel._ensure_initialized`, single-caller path: an already
initialized model returns at once; otherwise the body runs, success sets
the flag, failure leaves the state uninitialized and re-raises to the
caller. -/
def chat_model_ensure_initialized (st : NacosChatModelState)
    (body : Except String ModelInitResult) :
    Except String NacosChatModelState :=
  if st.initialized then .ok st
  else
    match body with
    | .error e => .error e
    | .ok _ => .ok { st with initialized := true }

/-- Decoded `prompt.json`: at most one of `promptRef` / `prompt` is used;
`none` parse result = malformed JSON (raises). -/
structure PromptConfig where
  promptRef : Option String
  prompt : Option String
  deriving Repr, DecidableEq

/-- What `_init_listen_prompt` establishes: the loaded template, the
prompt-ref bookkeeping and the listeners it registered
(`data_id × group` pairs). -/
structure PromptInitResult where
  template : String
  user_prompt_ref : String
  listeners : List (String × String)
  deriving Repr, DecidableEq

/-- `NacosAgentListener._init_listen_prompt` over the fetched
`prompt.json` payload.  `refFetch` is `get_config` on the referenced key
in group `nacos-ai-prompt`; `parseCfg` / `parseTemplate` stand for
`json.loads` plus key access. -/
def init_listen_prompt (group : String) (fetched : Option String)
    (refFetch : String → Option String)
    (parseCfg : String → Option PromptConfig)
    (parseTemplate : String → Option String) :
    Except String PromptInitResult :=
  match fetched with
  | none =>
    .ok { template := "", user_prompt_ref := "",
          listeners := [("prompt.json", group)] }
  | some raw =>
    if raw.length = 0 then
      .ok { template := "", user_prompt_ref := "",
            listeners := [("prompt.json", group)] }
    else
      match parseCfg raw with
      | none => .error "malformed prompt config"
      | some cfg =>
        match cfg.promptRef with
        | some ref =>
          match refFetch ref with
          | none => .error ("Prompt ref not found: " ++ ref)
          | some refRaw =>
            if refRaw.length = 0 then
              .error ("Prompt ref not found: " ++ ref)
            else
              match parseTemplate refRaw with
              | none => .error "malformed referenced prompt"
              | some tpl =>
                .ok { template := tpl, user_prompt_ref := ref,
                      listeners := [(ref, "nacos-ai-prompt"),
                                    ("prompt.json", group)] }
        | none =>
          match cfg.prompt with
          | some p =>
            .ok { template := p, user_prompt_ref := "",
                  listeners := [("prompt.json", group)] }
          | none => .error ("Invalid prompt config: " ++ raw)

/-! ## `mcp/agentscope_nacos_mcp.NacosMCPClientBase`

Dictionaries are embedded as association lists; `dict.get`-style lookups
take the first entry with a matching key.  (In `_check_tools_changed` the
python `!=` on `toolsMeta` is dict inequality; it is embedded as
association-list inequality, which agrees with it on every value the
client actually stores, since `_tools_meta` is only ever a previously
received `toolsMeta` or `{}`.) -/

/-- One entry of a tool's `inputSchema["properties"]`: only the
`description` key is read or written; `none` = the key is absent. -/
structure ArgSchema where
  description : Option String
  deriving Repr, DecidableEq

/-- A cached `mcp.types.Tool` as used here: `name`, `description`,
`inputSchema["properties"]`. -/
structure McpTool where
  name : String
  description : Option String
  args : List (String × ArgSchema)
  deriving Repr, DecidableEq

/-- `toolsMeta[name]`: the per-tool metadata object; only `enabled` is
read. -/
structure McpToolMeta where
  enabled : Option Bool
  deriving Repr, DecidableEq

/-- The `toolsMeta` dictionary. -/
abbrev ToolsMeta := List (String × McpToolMeta)

/-- A tool definition inside `server_detail_info.toolSpec.tools`. -/
structure SpecTool where
  name : String
  description : Option String
  args : List (String × ArgSchema)
  deriving Repr, DecidableEq

/-- `McpServerDetailInfo.toolSpec`. -/
structure McpToolSpec where
  tools : Option (List SpecTool)
  toolsMeta : Option ToolsMeta
  deriving Repr, DecidableEq

/-- The part of `McpServerDetailInfo` this code reads. -/
structure McpServerDetailInfo where
  toolSpec : Option McpToolSpec
  deriving Repr, DecidableEq

/-- `NacosMCPClientBase` mutable state: `_tools` (initialized to `[]` and
only ever assigned fetched lists, hence a plain list), `_tools_meta`
(initialized to the empty dict; kept `Option` because `is_tool_enabled`
guards against `None`), and the subscribed server detail info. -/
structure MCPClientState where
  tools : List McpTool
  tools_meta : Option ToolsMeta
  detail : McpServerDetailInfo
  deriving Repr, DecidableEq

/-- `NacosMCPClientBase.is_tool_enabled`. -/
def is_tool_enabled (st : MCPClientState) (tool_name : String) : Bool :=
  match st.tools_meta with
  | none => true
  | some m =>
    match m.find? (fun kv => kv.1 == tool_name) with
    | none => true
    | some kv =>
      match kv.2.enabled with
      | some false => false
      | _ => true

/-- `NacosMCPClientBase._check_tools_changed`.  (`self._tools is None`
never holds — `_tools` starts as `[]` — so that guard is not modelled.) -/
def check_tools_changed (st : MCPClientState) (d : McpServerDetailInfo) :
    Bool :=
  match d.toolSpec with
  | none => false
  | some ts =>
    match ts.tools with
    | none => false
    | some _ => decide (ts.toolsMeta ≠ st.tools_meta)

/-- One iteration of `update_args_description`'s loop body for a local
`(key, value)` pair: if the key exists in the nacos args and that entry
has a `description`, compare it against `value["description"]` — which
raises `KeyError` when the local entry has no `description` — and copy it
over when different. -/
def upd_arg (nacosArgs : List (String × ArgSchema))
    (kv : String × ArgSchema) :
    Except String ((String × ArgSchema) × Bool) :=
  match nacosArgs.find? (fun x => x.1 == kv.1) with
  | none => .ok (kv, false)
  | some nkv =>
    match nkv.2.description with
    | none => .ok (kv, false)
    | some nd =>
      match kv.2.description with
      | none => .error "KeyError: description"
      | some ld =>
        if ld ≠ nd then .ok ((kv.1, { description := some nd }), true)
        else .ok (kv, false)

/-- `update_args_description` inside `update_tools`: walk the local args,
patching descriptions from the nacos args; the flag records whether any
description changed. -/
def update_args_description (localArgs nacosArgs : List (String × ArgSchema)) :
    Except String (List (String × ArgSchema) × Bool) :=
  match localArgs with
  | [] => .ok ([], false)
  | kv :: rest =>
    match upd_arg nacosArgs kv with
    | .error e => .error e
    | .ok (kv', c1) =>
      match update_args_description rest nacosArgs with
      | .error e => .error e
      | .ok (rest', c2) => .ok (kv' :: rest', c1 || c2)

/-- The description a matched cached tool ends up with:
`if tool.description is not None and self_tool.description !=
tool.description: self_tool.description = tool.description`. -/
def new_tool_description (t : SpecTool) (lt : McpTool) : Option String :=
  match t.description with
  | some d => if lt.description ≠ some d then some d else lt.description
  | none => lt.description

/-- Whether the matched tool's description assignment fired (the
`tools_changed = True` in the same branch). -/
def tool_description_changed (t : SpecTool) (lt : McpTool) : Bool :=
  match t.description with
  | some d => decide (lt.description ≠ some d)
  | none => false

/-- The matched cached tool after the in-place mutation of its
description and (already computed) argument descriptions. -/
def patched_tool (t : SpecTool) (lt : McpTool)
    (args' : List (String × ArgSchema)) : McpTool :=
  { lt with description := new_tool_description t lt, args := args' }

/-- The inner loop of `update_tools` for one spec tool: find the first
cached tool with the same name, update its description (when the spec
carries one and it differs) and its argument descriptions, then `break`. -/
def update_tool_in_locals (t : SpecTool) (cached : List McpTool) :
    Except String (List McpTool × Bool) :=
  match cached with
  | [] => .ok ([], false)
  | lt :: rest =>
    if lt.name = t.name then
      match update_args_description lt.args t.args with
      | .error e => .error e
      | .ok (args', c2) =>
        .ok (patched_tool t lt args' :: rest,
             tool_description_changed t lt || c2)
    else
      match update_tool_in_locals t rest with
      | .error e => .error e
      | .ok (rest', c) => .ok (lt :: rest', c)

/-- The outer loop of `update_tools` over `tool_spec.tools`. -/
def update_all_tools (ts : List SpecTool) (cached : List McpTool) :
    Except String (List McpTool × Bool) :=
  match ts with
  | [] => .ok (cached, false)
  | t :: rest =>
    match update_tool_in_locals t cached with
    | .error e => .error e
    | .ok (l1, c1) =>
      match update_all_tools rest l1 with
      | .error e => .error e
      | .ok (l2, c2) => .ok (l2, c1 || c2)

/-- `NacosMCPClientBase.update_tools`: check for changes *before*
committing, replace `_tools_meta` (an absent `toolsMeta` stores `{}`),
then patch cached tool and argument descriptions. -/
def update_tools (st : MCPClientState) (d : McpServerDetailInfo) :
    Except String (Bool × MCPClientState) :=
  match d.toolSpec with
  | none => .ok (check_tools_changed st d, st)
  | some ts =>
    match ts.tools with
    | none =>
      .ok (check_tools_changed st d,
           { st with tools_meta := some (ts.toolsMeta.getD []) })
    | some specTools =>
      match update_all_tools specTools st.tools with
      | .error e => .error e
      | .ok (tools', c) =>
        .ok (check_tools_changed st d || c,
             { st with
               tools_meta := some (ts.toolsMeta.getD [])
               tools := tools' })

/-- `NacosMCPClientBase.list_tools` (post-initialization): cache the
freshly fetched tool list, apply `update_tools` against the subscribed
detail info, and return only the enabled tools.  `fetched` is the result
of the subclass `_list_tools_impl`. -/
def list_tools (st : MCPClientState) (fetched : List McpTool) :
    Except String (List McpTool × MCPClientState) :=
  match update_tools { st with tools := fetched } st.detail with
  | .error e => .error e
  | .ok (_, st2) =>
    .ok (st2.tools.filter (fun t => is_tool_enabled st2 t.name), st2)

/-- Step 3 of `get_callable_function`: the linear search for a tool with
the requested name that is also enabled, and the `not found` error
raised otherwise (the same error whether the tool is absent or
disabled). -/
def find_target_tool (st : MCPClientState) (func_name mcpName : String) :
    Except String (McpTool × MCPClientState) :=
  match st.tools.find?
      (fun tool => tool.name == func_name && is_tool_enabled st tool.name) with
  | some tool => .ok (tool, st)
  | none =>
    .error ("Tool '" ++ func_name ++ "' not found in the MCP server '"
        ++ mcpName ++ "'")

/-- `NacosMCPClientBase.get_callable_function` (post-initialization): if
the cached tool list is empty, fetch it via `list_tools` first; then look
up the named enabled tool; the returned `McpTool` is the tool the
subclass `_create_tool_function_impl` wraps into the callable. -/
def get_callable_function (st : MCPClientState) (fetched : List McpTool)
    (func_name mcpName : String) :
    Except String (McpTool × MCPClientState) :=
  if st.tools.isEmpty then
    match list_tools st fetched with
    | .error e => .error e
    | .ok (_, st') => find_target_tool st' func_name mcpName
  else
    find_target_tool st func_name mcpName

/-- The subscription callback in `_async_init`: after
`changed = self.update_tools(...)`, toolkits are notified iff `changed`
and the weak-reference set is non-empty. -/
def subscription_callback_notifies (changed has_toolkit_refs : Bool) :
    Bool :=
  changed && has_toolkit_refs

/-! ## `a2a/a2a_agent.A2aAgent`: message conversion and `reply`

Strings stand for python strings; the opaque JSON dictionaries carried by
tool-use/tool-result parts are a `DataVal` (the outbound conversion
moves them wholesale).  The
`uuid4()` message id is passed in as `fresh`.  The `a2a.types.Message`
constructor call in `_convert_msgs_to_a2a_message` passes `message_id`,
`role`, `parts` and `metadata` only; the pydantic model defaults the
remaining `task_id` and `context_id` fields to `None`, which the
embedding records explicitly. -/

/-- An opaque JSON payload (`Any` content the conversion never inspects). -/
abbrev ToolPayload := String

/-- The `data` dictionary of a DataPart: either an arbitrary payload or
the wrapper `{"_agentscope_tool_output": ...}` written by the
tool-result conversion (whose value may itself be `None`). -/
inductive DataVal where
  | plain (payload : ToolPayload)
  | withToolOutput (output : Option ToolPayload)
  deriving Repr, DecidableEq

/-- The `_agentscope_*` keys a part's metadata dictionary may carry. -/
structure PartMeta where
  block_type : Option String := none
  tool_name : Option String := none
  tool_call_id : Option String := none
  msg_source : Option String := none
  msg_id : Option String := none
  deriving Repr, DecidableEq

/-- `FileWithUri` / `FileWithBytes`. -/
inductive A2AFile where
  | withUri (uri : String) (mime_type : Option String)
  | withBytes (bytes : String) (mime_type : Option String)
  deriving Repr, DecidableEq

/-- The `root` of an `a2a.types.Part`: TextPart, FilePart or DataPart,
each with its optional metadata dictionary. -/
inductive A2APartRoot where
  | textPart (text : String) (metadata : Option PartMeta)
  | filePart (file : A2AFile) (metadata : Option PartMeta)
  | dataPart (data : DataVal) (metadata : Option PartMeta)
  deriving Repr, DecidableEq

/-- `part.root.metadata`. -/
def A2APartRoot.metaOf : A2APartRoot → Option PartMeta
  | .textPart _ m => m
  | .filePart _ m => m
  | .dataPart _ m => m

/-- The `source` dictionary of a media block (`block.get("source")`
entries accessed with `.get`). -/
structure SrcDict where
  src_type : Option String := none
  url : Option String := none
  data : Option String := none
  media_type : Option String := none
  deriving Repr, DecidableEq

/-- An AgentScope ContentBlock as this code distinguishes them; `media`
covers Image/Audio/Video blocks via their type tag, `other` any
unsupported block type. -/
inductive ContentBlock where
  | text (text : String)
  | thinking (thinking : String)
  | media (kind : String) (source : Option SrcDict)
  | toolUse (id : Option String) (name : Option String) (input : DataVal)
  | toolResult (id : Option String) (name : Option String)
      (output : Option ToolPayload)
  | other (tag : String)
  deriving Repr, DecidableEq

/-- `Msg.content`: either a plain string or a list of content blocks. -/
inductive MsgContent where
  | str (s : String)
  | blocks (l : List ContentBlock)
  deriving Repr, DecidableEq

/-- A `Msg.metadata` value.  `errorMark t` is the dictionary
`{"error": True, "error_type": t}` the error paths attach; `userMeta` an
opaque caller-supplied dictionary; `metaMap` the wholesale A2A-message
metadata map that case 2 of `_convert_a2a_message_to_msg` stores. -/
inductive MsgMeta where
  | errorMark (error_type : String)
  | interruptedMark
  | userMeta (tag : String)
  | metaMap (entries : List (String × MsgMeta))
  deriving Repr

/-- An AgentScope `Msg` as used by `A2aAgent`. -/
structure Msg where
  id : String
  name : String
  content : MsgContent
  role : String
  metadata : Option MsgMeta
  deriving Repr

/-- The outbound `a2a.types.Message` built by
`_convert_msgs_to_a2a_message` (parts given by their roots). -/
structure A2aOutMessage where
  message_id : String
  role : String
  parts : List A2APartRoot
  metadata : Option (List (String × MsgMeta))
  task_id : Option String
  context_id : Option String
  deriving Repr

/-- An inbound `a2a.types.Message`. -/
structure A2AInMessage where
  role : String
  parts : List A2APartRoot
  metadata : Option (List (String × MsgMeta))
  task_id : Option String
  context_id : Option String
  deriving Repr

/-- `A2aAgent._infer_mime_type`. -/
def infer_mime_type (media_type : String) : String :=
  if media_type = "image" then "image/*"
  else if media_type = "audio" then "audio/*"
  else if media_type = "video" then "video/*"
  else "application/octet-stream"

/-- `A2aAgent._convert_media_block_to_file_part` (the media block's
`source` and type tag are its inputs). -/
def convert_media_block_to_file_part (src : Option SrcDict)
    (media_type : String) : Option A2APartRoot :=
  match src with
  | none => none
  | some s =>
    match s.src_type with
    | some "url" =>
      match s.url with
      | none => none
      | some u =>
        if u = "" then none
        else some (.filePart (.withUri u (some (infer_mime_type media_type)))
            none)
    | some "base64" =>
      match s.data with
      | none => none
      | some dta =>
        if dta = "" then none
        else
          some (.filePart (.withBytes dta
            (some (match s.media_type with
              | some mt => if mt = "" then infer_mime_type media_type else mt
              | none => infer_mime_type media_type))) none)
    | _ => none

/-- `A2aAgent._convert_content_block_to_part`: AgentScope block to A2A
part root, tagging the block type, tool name and call id in metadata;
empty text/thinking and unsupported blocks yield `None`. -/
def convert_content_block_to_part (block : ContentBlock) :
    Option A2APartRoot :=
  match block with
  | .text t =>
    if t ≠ "" ∧ t.trim ≠ "" then
      some (.textPart t (some { block_type := some "text" }))
    else none
  | .thinking t =>
    if t ≠ "" ∧ t.trim ≠ "" then
      some (.textPart t (some { block_type := some "thinking" }))
    else none
  | .media kind src =>
    if kind = "image" ∨ kind = "audio" ∨ kind = "video" then
      convert_media_block_to_file_part src kind
    else none
  | .toolUse tid tname tinput =>
    some (.dataPart tinput (some { block_type := some "tool_use"
                                   tool_name := tname
                                   tool_call_id := tid }))
  | .toolResult tid tname tout =>
    some (.dataPart (.withToolOutput tout)
      (some { block_type := some "tool_result"
              tool_name := tname
              tool_call_id := tid }))
  | .other _ => none

/-- The per-message tracking metadata
`{_agentscope_msg_source, _agentscope_msg_id}`. -/
def tracking_meta (msg : Msg) : PartMeta :=
  { msg_source := some msg.name, msg_id := some msg.id }

/-- `part.root.metadata.update(part_metadata)` or assignment when the
part had no metadata. -/
def set_tracking_meta (msg : Msg) (root : A2APartRoot) : A2APartRoot :=
  match root with
  | .textPart t m =>
    .textPart t (some (match m with
      | some pm => { pm with
          msg_source := some msg.name
          msg_id := some msg.id }
      | none => tracking_meta msg))
  | .filePart f m =>
    .filePart f (some (match m with
      | some pm => { pm with
          msg_source := some msg.name
          msg_id := some msg.id }
      | none => tracking_meta msg))
  | .dataPart dta m =>
    .dataPart dta (some (match m with
      | some pm => { pm with
          msg_source := some msg.name
          msg_id := some msg.id }
      | none => tracking_meta msg))

/-- The part list `_convert_msgs_to_a2a_message` accumulates over the
input messages. -/
def msgs_parts (msgs : List Msg) : List A2APartRoot :=
  msgs.flatMap (fun msg =>
    match msg.content with
    | .str s =>
      if s.trim ≠ "" then [.textPart s (some (tracking_meta msg))] else []
    | .blocks bl =>
      bl.filterMap (fun b =>
        (convert_content_block_to_part b).map (set_tracking_meta msg)))

/-- The `a2a_metadata[msg.id] = msg.metadata` accumulation (present,
non-empty metadata only). -/
def msgs_metadata (msgs : List Msg) : List (String × MsgMeta) :=
  msgs.filterMap (fun m => m.metadata.map (fun md => (m.id, md)))

/-- `A2aAgent._convert_msgs_to_a2a_message`: merge the messages into one
outbound A2A message with a fresh uuid; an empty part list becomes one
empty text part.  `task_id` and `context_id` are the pydantic defaults —
the constructor call never sets them. -/
def convert_msgs_to_a2a_message (fresh : String) (msgs : List Msg) :
    A2aOutMessage :=
  { message_id := fresh
    role := "user"
    parts := if (msgs_parts msgs).isEmpty
      then [A2APartRoot.textPart "" none] else msgs_parts msgs
    metadata := if (msgs_metadata msgs).isEmpty
      then none else some (msgs_metadata msgs)
    task_id := none
    context_id := none }

/-! ### The inbound conversions and the unimported names

`a2a_agent.py` imports from `agentscope.message` only `Msg` (line 22);
the block constructors `TextBlock`, `ThinkingBlock`, `ToolUseBlock`,
`ToolResultBlock`, `ImageBlock`, `AudioBlock`, `VideoBlock`, the source
types `URLSource`/`Base64Source` and `collections.OrderedDict` are used
(lines 385, 400, 471, 478, 491, 552, 687, 690, 738, 753, 767, 813, 816,
831 ff.) but never imported, so each such use raises `NameError` at
runtime.  (On Python versions that evaluate type hints eagerly the
module does not even import: the method signatures already name the
unimported `Task` and `ContentBlock`.)  The embedding keeps the
computation the source performs before reaching the unresolved name; a
raised Python exception is the `.error` of an `Except`. -/

/-- The `NameError` raised at the first use of an unimported name. -/
def nameErr (n : String) : String :=
  "NameError: name " ++ n ++ " is not defined"

/-- `A2aAgent._convert_data_part_to_block`: all three branches end in a
constructor call on an unimported name — `ToolUseBlock` (line 738),
`ToolResultBlock` (line 753, after reading `_agentscope_tool_output`
with `data.get`), `TextBlock` (line 767, after `json.dumps`) — so every
call raises. -/
def convert_data_part_to_block (_dta : DataVal) (m : Option PartMeta) :
    Except String ContentBlock :=
  match m.bind PartMeta.block_type with
  | some bt =>
    if bt = "tool_use" then .error (nameErr "ToolUseBlock")
    else if bt = "tool_result" then .error (nameErr "ToolResultBlock")
    else .error (nameErr "TextBlock")
  | none => .error (nameErr "TextBlock")

/-- `A2aAgent._convert_file_part_to_media_block`: the early `None`
returns (no or unrecognized mime type) touch only imported names, but
the image/audio/video cases construct `URLSource` (line 813) or
`Base64Source` (line 816), both unimported, and raise before the media
block would even be built. -/
def convert_file_part_to_media_block (f : A2AFile) :
    Except String (Option ContentBlock) :=
  match (match f with
    | .withUri _ mt => mt
    | .withBytes _ mt => mt) with
  | none => .ok none
  | some mime =>
    if mime.startsWith "image/" ∨ mime.startsWith "audio/"
        ∨ mime.startsWith "video/" then
      match f with
      | .withUri _ _ => .error (nameErr "URLSource")
      | .withBytes _ _ => .error (nameErr "Base64Source")
    else .ok none

/-- `A2aAgent._convert_part_to_content_block`: the TextPart branch
raises at `ThinkingBlock` (line 687) or `TextBlock` (line 690); the
FilePart and DataPart branches delegate. -/
def convert_part_to_content_block (root : A2APartRoot) :
    Except String (Option ContentBlock) :=
  match root with
  | .textPart _ m =>
    if (m.bind PartMeta.block_type) = some "thinking" then
      .error (nameErr "ThinkingBlock")
    else .error (nameErr "TextBlock")
  | .filePart f _ => convert_file_part_to_media_block f
  | .dataPart dta m =>
    match convert_data_part_to_block dta m with
    | .error e => .error e
    | .ok cb => .ok (some cb)

/-- `A2aAgent._convert_a2a_message_to_msg`: its first statement,
`msg_groups = OrderedDict()` (line 552), uses the unimported
`collections.OrderedDict` and raises before any part is examined. -/
def convert_a2a_message_to_msg (_agentName : String) (_am : A2AInMessage) :
    Except String Msg :=
  .error (nameErr "OrderedDict")

/-- Task states as this code distinguishes them. -/
inductive TaskStateTag where
  | working
  | completed
  | failed
  | submitted
  | otherTag (s : String)
  deriving Repr, DecidableEq

/-- `task.status.state.value`. -/
def stateValue : TaskStateTag → String
  | .working => "working"
  | .completed => "completed"
  | .failed => "failed"
  | .submitted => "submitted"
  | .otherTag s => s

/-- `task.status`. -/
structure TaskStatus where
  state : TaskStateTag
  message : Option A2AInMessage
  deriving Repr

/-- A completed task's artifact: a named bundle of parts (only the parts
are read). -/
structure Artifact where
  parts : List A2APartRoot
  deriving Repr

/-- The `a2a.types.Task` fields this code reads. -/
structure A2ATask where
  id : String
  context_id : String
  status : TaskStatus
  artifacts : Option (List Artifact)
  deriving Repr

/-- `A2aAgent._construct_msg_from_task_status`: with a status message,
the call to `_convert_a2a_message_to_msg` raises at `OrderedDict`; had
it returned — and when there is no status message — execution reaches
`state_info_block = TextBlock(...)` (lines 471/491).  Every call
raises. -/
def construct_msg_from_task_status (agentName : String) (t : A2ATask) :
    Except String Msg :=
  match t.status.message with
  | some am =>
    match convert_a2a_message_to_msg agentName am with
    | .error e => .error e
    | .ok _ => .error (nameErr "TextBlock")
  | none => .error (nameErr "TextBlock")

/-- The per-part loop of `_convert_task_artifacts_to_msg`: collect the
converted blocks, skipping parts that convert to `None` and propagating
the first raised error. -/
def collect_artifact_blocks :
    List A2APartRoot → Except String (List ContentBlock)
  | [] => .ok []
  | p :: rest =>
    match convert_part_to_content_block p with
    | .error e => .error e
    | .ok none => collect_artifact_blocks rest
    | .ok (some cb) =>
      match collect_artifact_blocks rest with
      | .error e => .error e
      | .ok l => .ok (cb :: l)

/-- `A2aAgent._convert_task_artifacts_to_msg`: `None` without artifacts
(before any conversion is attempted); otherwise the merge of all
artifact parts — which completes only when every part converts to
`None` (e.g. file parts without a usable mime type), any other part
raising en route. -/
def convert_task_artifacts_to_msg (agentName : String) (t : A2ATask) :
    Except String (Option Msg) :=
  match t.artifacts with
  | none => .ok none
  | some arts =>
    if arts.isEmpty then .ok none
    else
      match collect_artifact_blocks (arts.flatMap (fun a => a.parts)) with
      | .error e => .error e
      | .ok blocks =>
        .ok (some { id := ""
                    name := agentName
                    content := if blocks.isEmpty then MsgContent.str ""
                      else MsgContent.blocks blocks
                    role := "assistant"
                    metadata := none })

/-- One item of the `client.send_message` response stream. -/
inductive StreamItem where
  | message (m : A2AInMessage)
  | taskPair (t : A2ATask)
  deriving Repr

/-- How the stream ends: exhaustion, a raised transport/protocol error
(`type(e).__name__` and `str(e)`), or cancellation. -/
inductive StreamEnd where
  | done
  | errored (error_type errText : String)
  | cancelled
  deriving Repr, DecidableEq

/-- The loop body of `reply`'s `async for`: a direct message is
converted by `_convert_a2a_message_to_msg` (raises at `OrderedDict`); a
(task, update) pair first builds the status message — which always
raises — and only then the artifacts message; `response_msg` is
assigned the artifacts message (possibly `None`) for a completed task,
else the status message. -/
def process_stream_item (agentName : String) (_acc : Option Msg)
    (item : StreamItem) : Except String (Option Msg) :=
  match item with
  | .message am =>
    match convert_a2a_message_to_msg agentName am with
    | .error e => .error e
    | .ok m => .ok (some m)
  | .taskPair t =>
    match construct_msg_from_task_status agentName t with
    | .error e => .error e
    | .ok status_msg =>
      match convert_task_artifacts_to_msg agentName t with
      | .error e => .error e
      | .ok artifact_msg =>
        .ok (if t.status.state = .completed then artifact_msg
          else some status_msg)

/-- Folding the loop body over the stream items, stopping at the first
raised exception. -/
def run_stream_items (agentName : String) (acc : Option Msg) :
    List StreamItem → Except String (Option Msg)
  | [] => .ok acc
  | item :: rest =>
    match process_stream_item agentName acc item with
    | .error e => .error e
    | .ok acc2 => run_stream_items agentName acc2 rest

/-- How the `try` block of `reply` ends: the loop ran to completion
leaving `response_msg`; an exception raised while processing an item; a
transport/protocol error raised by the stream itself; or
cancellation. -/
inductive StreamConsumeResult where
  | finished (respMsg : Option Msg)
  | itemRaised (e : String)
  | transportRaised (error_type errText : String)
  | cancelled
  deriving Repr

/-- Consuming the response stream inside the `try`. -/
def consume_stream (agentName : String) (items : List StreamItem)
    (ending : StreamEnd) : StreamConsumeResult :=
  match run_stream_items agentName none items with
  | .error e => .itemRaised e
  | .ok acc =>
    match ending with
    | .done => .finished acc
    | .errored et etxt => .transportRaised et etxt
    | .cancelled => .cancelled

/-- The early-return prompt message when there is nothing to send (this
path touches only the imported `Msg` and works). -/
def prompt_reply_msg (agentName : String) : Msg :=
  { id := ""
    name := agentName
    content := .str "No input message provided. How can I help you?"
    role := "assistant"
    metadata := none }

/-- `reply`'s outcome: a returned message, or a Python exception
escaping the call. -/
inductive ReplyOutcome where
  | returned (m : Msg)
  | raisedPy (e : String)
  deriving Repr

/-- One call of `A2aAgent.reply`: merge observed and input messages
(early prompt return when empty, without clearing the observed list);
otherwise build the outbound A2A message (line 302, before the `try`)
and consume the response stream.  The `except Exception` handler (line
385) and the `finally` block (line 400) both construct the unimported
`TextBlock`: when the loop finishes with `response_msg` still `None`
the `finally` raises `NameError`; an exception from an item or from the
stream reaches the handler, whose own `NameError` then passes through
the likewise-raising `finally`; and on cancellation the re-raised
`CancelledError` is *replaced* by the `NameError` the `finally` raises.
Whenever an exception escapes, `self._observed_msgs.clear()` (line 410)
is not reached, so the observed list survives the call.  Result:
(outbound message built, outcome, observed list after). -/
def reply_turn (agentName fresh : String) (observed input : List Msg)
    (items : List StreamItem) (ending : StreamEnd) :
    Option A2aOutMessage × ReplyOutcome × List Msg :=
  if (observed ++ input).isEmpty then
    (none, .returned (prompt_reply_msg agentName), observed)
  else
    match consume_stream agentName items ending with
    | .finished (some m) =>
      (some (convert_msgs_to_a2a_message fresh (observed ++ input)),
       .returned m, [])
    | .finished none =>
      (some (convert_msgs_to_a2a_message fresh (observed ++ input)),
       .raisedPy (nameErr "TextBlock"), observed)
    | .itemRaised _ =>
      (some (convert_msgs_to_a2a_message fresh (observed ++ input)),
       .raisedPy (nameErr "TextBlock"), observed)
    | .transportRaised _ _ =>
      (some (convert_msgs_to_a2a_message fresh (observed ++ input)),
       .raisedPy (nameErr "TextBlock"), observed)
    | .cancelled =>
      (some (convert_msgs_to_a2a_message fresh (observed ++ input)),
       .raisedPy (nameErr "TextBlock"), observed)

/-! ## `utils.AsyncRWLock` as a transition system

`acquire_read` suspends `while self._writers > 0`; `acquire_write`
suspends `while self._readers > 0 or self._writers > 0`; releases
decrement and notify.  The lock's observable state is the two counters
plus how many coroutines are suspended inside each acquire; a `grant`
step is a suspended coroutine passing its `while` guard and
incrementing, exactly as the python code does under the internal mutex.
Release steps carry the guard that a lock is actually held: the code is
only exercised through the paired `read_lock`/`write_lock` context
managers. -/

/-- Counters of `AsyncRWLock` plus the two wait sets. -/
structure RWState where
  readers : Nat
  writers : Nat
  waitingReaders : Nat
  waitingWriters : Nat
  deriving Repr, DecidableEq

/-- One scheduler step of the lock. -/
inductive RWStep : RWState → RWState → Prop where
  | reqRead (s : RWState) :
      RWStep s { s with waitingReaders := s.waitingReaders + 1 }
  | grantRead (s : RWState) (hw : s.writers = 0)
      (hq : 0 < s.waitingReaders) :
      RWStep s { s with waitingReaders := s.waitingReaders - 1, readers := s.readers + 1 }
  | releaseRead (s : RWState) (h : 0 < s.readers) :
      RWStep s { s with readers := s.readers - 1 }
  | reqWrite (s : RWState) :
      RWStep s { s with waitingWriters := s.waitingWriters + 1 }
  | grantWrite (s : RWState) (hr : s.readers = 0) (hw : s.writers = 0)
      (hq : 0 < s.waitingWriters) :
      RWStep s { s with waitingWriters := s.waitingWriters - 1, writers := s.writers + 1 }
  | releaseWrite (s : RWState) (h : 0 < s.writers) :
      RWStep s { s with writers := s.writers - 1 }

/-- States reachable from the freshly constructed lock. -/
inductive RWReachable : RWState → Prop where
  | init : RWReachable ⟨0, 0, 0, 0⟩
  | step (s s' : RWState) : RWReachable s → RWStep s s' → RWReachable s'

/-! ## `_ensure_initialized` as a transition system

The guard appears verbatim in `NacosChatModel`, `NacosAgentListener` and
`NacosMCPClientBase`:

```
if self._initialized: return
if self._initializing:
    while self._initializing: await asyncio.sleep(0.01)
    return
async with self._init_lock:
    if self._initialized: return
    self._initializing = True
    try:    await self._async_init(); self._initialized = True
    except: raise
    finally: self._initializing = False
```

Cooperative (single-thread) concurrency: code between awaits runs
atomically.  An uncontended `asyncio.Lock.acquire()` returns without
yielding to the event loop, and no await separates the two prologue
checks, the acquisition, the double-check and `self._initializing =
True` — nor the body's completion from the `finally` and the mutex
release.  So the only suspension points are the `asyncio.sleep` in the
poll loop and the awaits inside `_async_init`; the mutex is held only
while its holder is inside the body, at which points `initializing` is
`True` (invariant fields `lockBody`/`ingIff` below), and a caller only
reaches the `async with` having just observed `initializing == False`
in the same atomic region — so the mutex is always granted immediately
and no caller ever waits on it.  Each of `n` concurrent callers is a
program counter; `execCount` counts how many times `_async_init` was
entered.  `canFail` selects whether the body may raise. -/

/-- Where one caller of `_ensure_initialized` is between suspensions:
not yet started, sleeping in the poll loop, inside `_async_init`, or
finished (returned / raised).  There is no waiting-on-the-mutex point:
acquisition never suspends (see above). -/
inductive InitPC where
  | start
  | polling
  | inBody
  | doneReturned
  | doneRaised
  deriving Repr, DecidableEq

/-- The shared flags, the mutex, the callers and the execution count. -/
structure InitState (n : Nat) where
  initialized : Bool
  initializing : Bool
  lock : Option (Fin n)
  pcs : Fin n → InitPC
  execCount : Nat

/-- The freshly constructed component with `n` callers about to call
`_ensure_initialized`. -/
def initState (n : Nat) : InitState n :=
  { initialized := false
    initializing := false
    lock := none
    pcs := fun _ => .start
    execCount := 0 }

/-- One scheduler step.  `startInitialized` and `startPoll` are the
prologue's early branches; `startRun` is the prologue falling through
to the `async with`: the immediately granted acquisition, the
double-check (which still sees `initialized == False` — nothing ran in
between), the setting of `initializing` and the entry of the body, all
before the first suspension.  Its `hlock` guard is provably redundant
in reachable states, where both flags being `False` forces the mutex
free.  `pollWake` is a sleeping waiter observing `initializing ==
False` and returning (with no further checks — as in the code);
`bodyOk`/`bodyFail` the body finishing: the `finally` clears
`initializing`, the `async with` releases the mutex, success sets
`initialized` first, failure re-raises to this caller only. -/
inductive InitStep (canFail : Bool) {n : Nat} :
    InitState n → InitState n → Prop where
  | startInitialized (s : InitState n) (i : Fin n)
      (hpc : s.pcs i = .start) (hinit : s.initialized = true) :
      InitStep canFail s
        { s with pcs := Function.update s.pcs i .doneReturned }
  | startPoll (s : InitState n) (i : Fin n)
      (hpc : s.pcs i = .start) (hinit : s.initialized = false)
      (hing : s.initializing = true) :
      InitStep canFail s { s with pcs := Function.update s.pcs i .polling }
  | startRun (s : InitState n) (i : Fin n)
      (hpc : s.pcs i = .start) (hinit : s.initialized = false)
      (hing : s.initializing = false) (hlock : s.lock = none) :
      InitStep canFail s
        { s with
          lock := some i
          initializing := true
          execCount := s.execCount + 1
          pcs := Function.update s.pcs i .inBody }
  | pollWake (s : InitState n) (i : Fin n)
      (hpc : s.pcs i = .polling) (hing : s.initializing = false) :
      InitStep canFail s
        { s with pcs := Function.update s.pcs i .doneReturned }
  | bodyOk (s : InitState n) (i : Fin n)
      (hpc : s.pcs i = .inBody) (hlock : s.lock = some i) :
      InitStep canFail s
        { s with
          initialized := true
          initializing := false
          lock := none
          pcs := Function.update s.pcs i .doneReturned }
  | bodyFail (s : InitState n) (i : Fin n) (hcf : canFail = true)
      (hpc : s.pcs i = .inBody) (hlock : s.lock = some i) :
      InitStep canFail s
        { s with
          initializing := false
          lock := none
          pcs := Function.update s.pcs i .doneRaised }

/-- Reachability from the fresh component. -/
inductive InitReachable (canFail : Bool) (n : Nat) : InitState n → Prop where
  | init : InitReachable canFail n (initState n)
  | step (s s' : InitState n) : InitReachable canFail n s →
      InitStep canFail s s' → InitReachable canFail n s'

/-- The inductive invariant of the `_ensure_initialized` system when the
body cannot fail.  `lockBody` (the mutex is held only by a caller inside
the body) together with `ingIff` backs the modelling note above: when
`initializing` and `initialized` are both `False` the mutex is free. -/
structure InitInv {n : Nat} (s : InitState n) : Prop where
  execLe : s.execCount ≤ 1
  ingIff : s.initializing = true ↔ ∃ i, s.pcs i = InitPC.inBody
  bodyLock : ∀ i, s.pcs i = InitPC.inBody → s.lock = some i
  lockBody : ∀ i, s.lock = some i → s.pcs i = InitPC.inBody
  retInit : ∀ i, s.pcs i = InitPC.doneReturned → s.initialized = true
  pollInv : ∀ i, s.pcs i = InitPC.polling →
    s.initializing = true ∨ s.initialized = true
  execFlag : 1 ≤ s.execCount →
    s.initialized = true ∨ s.initializing = true
  initExec : s.initialized = true → s.execCount = 1
  bodyExec : ∀ i, s.pcs i = InitPC.inBody → 1 ≤ s.execCount

end NacosExt

/-! ### Claims C9 and C10 -/

namespace NacosExt

/-- The regex semantics, characterized: a match is a non-empty all-valid
string, or such a string followed by exactly one trailing newline. -/
theorem pyClassPlusMatch_iff (t : List Char) :
    pyClassPlusMatch t = true ↔
      ((t ≠ [] ∧ ∀ c ∈ t, validChar c) ∨
        (∃ core, t = core ++ ['\n'] ∧ core ≠ [] ∧ ∀ c ∈ core, validChar c)) := by
  unfold pyClassPlusMatch
  simp only [Bool.or_eq_true, Bool.and_eq_true, Bool.not_eq_true',
    List.isEmpty_eq_false, List.all_eq_true, beq_iff_eq]
  constructor
  · rintro (h | ⟨⟨hlast, hne⟩, hall⟩)
    · exact Or.inl h
    · obtain ⟨core, hcore⟩ := List.getLast?_eq_some_iff.mp hlast
      refine Or.inr ⟨core, hcore, ?_, ?_⟩
      · intro h0
        rw [hcore, h0, List.dropLast_concat] at hne
        exact hne rfl
      · intro c hc
        apply hall
        rw [hcore, List.dropLast_concat]
        exact hc
  · rintro (h | ⟨core, hcore, hcne, hcall⟩)
    · exact Or.inl h
    · refine Or.inr ⟨⟨?_, ?_⟩, ?_⟩
      · rw [hcore]
        exact List.getLast?_eq_some_iff.mpr ⟨core, rfl⟩
      · rw [hcore, List.dropLast_concat]
        exact hcne
      · intro c hc
        rw [hcore, List.dropLast_concat] at hc
        exact hcall c hc

/-- **C9, counterexample.**  The claim says `validate_agent_name` returns
the transformed name only when every character of the result is a letter,
digit or one of `.`, `:`, `_`, `-`.  On input `"abc\n"` the code returns
`"abc\n"` even though it contains a newline, because python's `$` also
matches just before a trailing newline. -/
theorem validate_agent_name_claim_false :
    validate_agent_name ['a', 'b', 'c', '\n']
        = Except.ok ['a', 'b', 'c', '\n']
      ∧ (['a', 'b', 'c', '\n'].all validChar) = false :=
  ⟨rfl, by decide⟩

/-- **C9 (amended).**  `validate_agent_name` first replaces spaces with
underscores and returns the transformed name iff the input is non-empty,
the result is at most 128 characters, and the result is either entirely
drawn from letters, digits, `.`, `:`, `_`, `-`, or is such a non-empty run
followed by one trailing newline (accepted because python's `$` matches
before a final newline); in every other case it raises `ValueError`.
`NacosChatModel`'s constructor applies this validation to `agent_name`, so
construction fails exactly when validation fails. -/
theorem validate_agent_name_spec (s t : List Char) :
    (validate_agent_name s = .ok t ↔
      (s ≠ [] ∧ t = replaceSpaces s ∧ t.length ≤ 128 ∧
        ((∀ c ∈ t, validChar c) ∨
          (∃ core, t = core ++ ['\n'] ∧ core ≠ [] ∧ ∀ c ∈ core, validChar c))))
    ∧ ((∃ st, NacosChatModel.construct s = .ok st) ↔
        (∃ u, validate_agent_name s = .ok u)) := by
  constructor
  · unfold validate_agent_name
    cases hemp : s.isEmpty with
    | true =>
      simp only [if_pos rfl]
      constructor
      · intro h; cases h
      · rintro ⟨hne, -⟩
        exact absurd (List.isEmpty_iff.mp hemp) hne
    | false =>
      simp only [if_neg Bool.false_ne_true]
      have hsne : s ≠ [] := List.isEmpty_eq_false.mp hemp
      by_cases hlen : (replaceSpaces s).length > 128
      · simp only [if_pos hlen]
        constructor
        · intro h; cases h
        · rintro ⟨-, htr, hle, -⟩
          subst htr
          omega
      · simp only [if_neg hlen]
        cases hm : pyClassPlusMatch (replaceSpaces s) with
        | false =>
          simp only [Bool.not_false, if_pos rfl]
          constructor
          · intro h; cases h
          · rintro ⟨hne, htr, hle, hvalid⟩
            subst htr
            have hmt : pyClassPlusMatch (replaceSpaces s) = true := by
              apply (pyClassPlusMatch_iff (replaceSpaces s)).mpr
              rcases hvalid with hall | hrest
              · left
                refine ⟨?_, hall⟩
                intro h0
                exact hsne (List.map_eq_nil_iff.mp h0)
              · exact Or.inr hrest
            rw [hm] at hmt
            cases hmt
        | true =>
          simp only [Bool.not_true, if_neg Bool.false_ne_true]
          constructor
          · intro h
            cases h
            refine ⟨hsne, rfl, by omega, ?_⟩
            rcases (pyClassPlusMatch_iff (replaceSpaces s)).mp hm with ⟨-, hall⟩ | hrest
            · exact Or.inl hall
            · exact Or.inr hrest
          · rintro ⟨-, htr, -, -⟩
            exact congrArg Except.ok htr.symm
  · unfold NacosChatModel.construct
    cases h : validate_agent_name s with
    | error e => simp [h]
    | ok v => simp [h]

/-- Closed witness for `validate_agent_name_spec`, instantiated at the
concrete input `"my agent"` (space replaced by underscore, accepted). -/
theorem validate_agent_name_spec_witness :
    validate_agent_name ['m', 'y', ' ', 'a'] = .ok ['m', 'y', '_', 'a'] ∧
      (['m', 'y', ' ', 'a'] ≠ [] ∧
        ['m', 'y', '_', 'a'] = replaceSpaces ['m', 'y', ' ', 'a'] ∧
        (['m', 'y', '_', 'a'] : List Char).length ≤ 128 ∧
        ((∀ c ∈ ['m', 'y', '_', 'a'], validChar c) ∨
          (∃ core, ['m', 'y', '_', 'a'] = core ++ ['\n'] ∧ core ≠ [] ∧
            ∀ c ∈ core, validChar c))) := by
  have h := (validate_agent_name_spec ['m', 'y', ' ', 'a'] ['m', 'y', '_', 'a']).1
  have hconds : (['m', 'y', ' ', 'a'] : List Char) ≠ [] ∧
      ['m', 'y', '_', 'a'] = replaceSpaces ['m', 'y', ' ', 'a'] ∧
      (['m', 'y', '_', 'a'] : List Char).length ≤ 128 ∧
      ((∀ c ∈ ['m', 'y', '_', 'a'], validChar c) ∨
        (∃ core, (['m', 'y', '_', 'a'] : List Char) = core ++ ['\n'] ∧ core ≠ [] ∧
          ∀ c ∈ core, validChar c)) := by
    refine ⟨by decide, by decide, by decide, Or.inl (by decide)⟩
  exact ⟨h.mpr hconds, hconds⟩

/-- **C10.**  `AutoFormatter.get_formatter` is total: any provider string
that is not one of the dictionary keys `dashScope`, `gemini`, `ollama`,
`anthropic`, `openai` falls back to the OpenAI formatter; in particular
the string `"dashscope"` — the very tag `NacosChatModel.generate_chat_model`
dispatches on — selects the OpenAI formatter, because the dictionary key
is spelled `dashScope`. -/
theorem get_formatter_fallback (m : Bool) (p : String)
    (hp : p ∉ ["dashScope", "gemini", "ollama", "anthropic", "openai"]) :
    (get_formatter m p = (if m then FormatterVal.openAIMulti else FormatterVal.openAIChat))
    ∧ get_formatter false "dashscope" = FormatterVal.openAIChat
    ∧ get_formatter true "dashscope" = FormatterVal.openAIMulti
    ∧ generate_chat_model "dashscope" = .ok ProviderTag.dashscope := by
  refine ⟨?_, rfl, rfl, rfl⟩
  have hne : ∀ k, k ∈ (["dashScope", "gemini", "ollama", "anthropic",
      "openai"] : List String) → (k == p) = false := by
    intro k hk
    apply beq_eq_false_iff_ne.mpr
    intro hkp
    exact hp (hkp ▸ hk)
  have hfind : ∀ (l : List (String × FormatterVal)),
      (∀ kv ∈ l, (kv.1 == p) = false) →
      l.find? (fun kv => kv.1 == p) = none := by
    intro l
    induction l with
    | nil => intro _; rfl
    | cons a t ih =>
      intro hall
      rw [List.find?_cons_of_neg, ih]
      · intro kv hkv
        exact hall kv (List.mem_cons_of_mem a hkv)
      · simp only [hall a (List.mem_cons_self a t)]
        exact Bool.false_ne_true
  cases m with
  | false =>
    have h0 : (formatter_dict false).find? (fun kv => kv.1 == p) = none := by
      apply hfind
      intro kv hkv
      simp only [formatter_dict, Bool.false_eq_true, if_false] at hkv
      fin_cases hkv <;> exact hne _ (by simp)
    simp [get_formatter, h0]
  | true =>
    have h0 : (formatter_dict true).find? (fun kv => kv.1 == p) = none := by
      apply hfind
      intro kv hkv
      simp only [formatter_dict, if_pos rfl] at hkv
      fin_cases hkv <;> exact hne _ (by simp)
    simp [get_formatter, h0]

/-- Closed witness for `get_formatter_fallback` at `p = "qwen"`. -/
theorem get_formatter_fallback_witness :
    get_formatter false "qwen" = FormatterVal.openAIChat := by
  simpa using (get_formatter_fallback false "qwen" (by decide)).1

/-! ### Claim C7: not-initialized guards -/

/-- **C7 (code bug).**  `attach_agent` and the three getters raise the
explicit `not initialized` error on an uninitialized listener, but
`detach_agent` — whose own docstring says `Raises: RuntimeError: If
listener is not initialized` — performs no such check: on a freshly
constructed (uninitialized) listener it silently succeeds, so the claim's
`detach` clause fails on the code. -/
theorem listener_guards_detach_unguarded :
    (NacosAgentListener.construct true true true).initialized = false
    ∧ attach_agent (NacosAgentListener.construct true true true)
        { sys_prompt := "p", toolkit := none, model := 7, formatter := 8 }
        = .error notInitializedMsg
    ∧ get_model_and_formatter (NacosAgentListener.construct true true true)
        = .error notInitializedMsg
    ∧ get_toolkit (NacosAgentListener.construct true true true)
        = .error notInitializedMsg
    ∧ get_prompt (NacosAgentListener.construct true true true)
        = .error notInitializedMsg
    ∧ detach_agent (NacosAgentListener.construct true true true)
        = .ok (NacosAgentListener.construct true true true, none) :=
  ⟨rfl, rfl, rfl, rfl, rfl, rfl⟩

/-! ### Claim C4: config-absence asymmetry -/

/-- **C4.**  During first initialization an absent or empty `model.json`
is fatal: `_async_init` raises and `_ensure_initialized` propagates the
error to its caller, leaving the model uninitialized.  An absent or
empty `prompt.json` is not fatal: `_init_listen_prompt` registers the
`prompt.json` change listener and returns successfully. -/
theorem config_absence_asymmetry (group : String)
    (parse : String → Option ModelConfig)
    (ok : ModelConfig → Bool) (hb : Bool)
    (st : NacosChatModelState) (hst : st.initialized = false)
    (fetchedM : Option String) (habs : fetchedM = none ∨ fetchedM = some "")
    (refFetch : String → Option String)
    (parseCfg : String → Option PromptConfig)
    (parseTemplate : String → Option String) :
    (model_async_init group fetchedM parse ok hb
        = .error "No model config found for agent")
    ∧ (chat_model_ensure_initialized st
         (model_async_init group fetchedM parse ok hb)
        = .error "No model config found for agent")
    ∧ (init_listen_prompt group fetchedM refFetch parseCfg parseTemplate
        = .ok { template := "", user_prompt_ref := "",
                listeners := [("prompt.json", group)] }) := by
  have hM : model_async_init group fetchedM parse ok hb
      = .error "No model config found for agent" := by
    rcases habs with h | h <;> subst h <;> rfl
  refine ⟨hM, ?_, ?_⟩
  · unfold chat_model_ensure_initialized
    rw [hst, hM]
    simp
  · rcases habs with h | h <;> subst h <;> rfl

/-- Closed witness for `config_absence_asymmetry`: absent payloads, a
trivially parsing environment. -/
theorem config_absence_asymmetry_witness :
    model_async_init "ai-agent-a" none (fun _ => none) (fun _ => true) false
        = .error "No model config found for agent"
    ∧ init_listen_prompt "ai-agent-a" none (fun _ => none) (fun _ => none)
        (fun _ => none)
        = .ok { template := "", user_prompt_ref := "",
                listeners := [("prompt.json", "ai-agent-a")] } := by
  have h := config_absence_asymmetry "ai-agent-a" (fun _ => none)
    (fun _ => true) false
    { agent_name := ['a'], initialized := false, initializing := false,
      model_provider := "openai" } rfl none (Or.inl rfl)
    (fun _ => none) (fun _ => none) (fun _ => none)
  exact ⟨h.1, h.2.2⟩

/-! ### Claim C5: tool disablement -/

/-- `find_target_tool` succeeds only on a present-and-enabled tool. -/
theorem find_target_tool_ok (st sg : MCPClientState) (n nm : String)
    (t : McpTool) (h : find_target_tool st n nm = .ok (t, sg)) :
    t.name = n ∧ t ∈ sg.tools ∧ is_tool_enabled sg t.name = true := by
  unfold find_target_tool at h
  cases hf : st.tools.find?
      (fun tool => tool.name == n && is_tool_enabled st tool.name) with
  | none =>
    rw [hf] at h
    cases h
  | some tool =>
    rw [hf] at h
    simp only [Except.ok.injEq, Prod.mk.injEq] at h
    obtain ⟨ht, hst⟩ := h
    subst ht
    subst hst
    have hp := List.find?_some hf
    simp only [Bool.and_eq_true, beq_iff_eq] at hp
    exact ⟨hp.1, List.mem_of_find?_eq_some hf, hp.1 ▸ hp.2⟩

/-- **C5.**  `list_tools` returns only tools enabled in the resulting
state; `get_callable_function` returns a tool iff it is present and
enabled in the (possibly refreshed) cached list; when every cached tool
either has a different name or is disabled, it raises the single
`not found` error — the same error whether the tool is absent or merely
disabled. -/
theorem tool_disablement (st : MCPClientState) (fetched : List McpTool)
    (out : List McpTool) (st' : MCPClientState) (n nm : String)
    (t : McpTool) (stg : MCPClientState) :
    (list_tools st fetched = .ok (out, st') →
      ∀ u ∈ out, is_tool_enabled st' u.name = true)
    ∧ (get_callable_function st fetched n nm = .ok (t, stg) →
        t.name = n ∧ t ∈ stg.tools ∧ is_tool_enabled stg t.name = true)
    ∧ (st.tools ≠ [] →
        (∀ u ∈ st.tools, ¬(u.name = n ∧ is_tool_enabled st u.name = true)) →
        get_callable_function st fetched n nm
          = .error ("Tool '" ++ n ++ "' not found in the MCP server '"
              ++ nm ++ "'")) := by
  refine ⟨?_, ?_, ?_⟩
  · intro h u hu
    unfold list_tools at h
    cases hup : update_tools { st with tools := fetched } st.detail with
    | error e =>
      rw [hup] at h
      cases h
    | ok pr =>
      rw [hup] at h
      simp only [Except.ok.injEq, Prod.mk.injEq] at h
      obtain ⟨hout, hst'⟩ := h
      subst hst'
      rw [← hout] at hu
      exact (List.mem_filter.mp hu).2
  · intro h
    unfold get_callable_function at h
    by_cases he : st.tools.isEmpty
    · rw [if_pos he] at h
      cases hl : list_tools st fetched with
      | error e =>
        rw [hl] at h
        cases h
      | ok pr =>
        rw [hl] at h
        exact find_target_tool_ok pr.2 stg n nm t h
    · rw [if_neg he] at h
      exact find_target_tool_ok st stg n nm t h
  · intro hne hnone
    unfold get_callable_function
    have he : st.tools.isEmpty = false := by
      cases hl : st.tools with
      | nil => exact absurd hl hne
      | cons a l => rfl
    rw [he]
    simp only [Bool.false_eq_true, if_false]
    unfold find_target_tool
    have hf : st.tools.find?
        (fun tool => tool.name == n && is_tool_enabled st tool.name)
        = none := by
      apply List.find?_eq_none.mpr
      intro u hu
      intro hp
      simp only [Bool.and_eq_true, beq_iff_eq] at hp
      exact hnone u hu ⟨hp.1, hp.2⟩
    rw [hf]

/-- Closed witness for `tool_disablement`, realizing the spec's scenario:
tools `search` and `calc` with `calc` disabled by metadata.  `list_tools`
keeps only `search`; `get_callable_function` finds `search` and raises
`not found` for `calc`. -/
theorem tool_disablement_witness :
    (∀ u ∈ [(⟨"search", none, []⟩ : McpTool)],
       is_tool_enabled
         ⟨[⟨"search", none, []⟩, ⟨"calc", none, []⟩],
          some [("calc", ⟨some false⟩)], ⟨none⟩⟩ u.name = true)
    ∧ ((⟨"search", none, []⟩ : McpTool).name = "search"
        ∧ (⟨"search", none, []⟩ : McpTool)
            ∈ (⟨[⟨"search", none, []⟩, ⟨"calc", none, []⟩],
               some [("calc", ⟨some false⟩)], ⟨none⟩⟩ : MCPClientState).tools
        ∧ is_tool_enabled
            ⟨[⟨"search", none, []⟩, ⟨"calc", none, []⟩],
             some [("calc", ⟨some false⟩)], ⟨none⟩⟩ "search" = true)
    ∧ get_callable_function
        ⟨[⟨"search", none, []⟩, ⟨"calc", none, []⟩],
         some [("calc", ⟨some false⟩)], ⟨none⟩⟩
        [] "calc" "srv"
        = .error "Tool 'calc' not found in the MCP server 'srv'" := by
  refine ⟨?_, ?_, ?_⟩
  · exact (tool_disablement
      ⟨[⟨"search", none, []⟩, ⟨"calc", none, []⟩],
       some [("calc", ⟨some false⟩)], ⟨none⟩⟩
      [⟨"search", none, []⟩, ⟨"calc", none, []⟩]
      [⟨"search", none, []⟩]
      ⟨[⟨"search", none, []⟩, ⟨"calc", none, []⟩],
       some [("calc", ⟨some false⟩)], ⟨none⟩⟩
      "x" "srv" ⟨"x", none, []⟩
      ⟨[], none, ⟨none⟩⟩).1 rfl
  · have h := (tool_disablement
      ⟨[⟨"search", none, []⟩, ⟨"calc", none, []⟩],
       some [("calc", ⟨some false⟩)], ⟨none⟩⟩
      [] [] ⟨[], none, ⟨none⟩⟩ "search" "srv"
      ⟨"search", none, []⟩
      ⟨[⟨"search", none, []⟩, ⟨"calc", none, []⟩],
       some [("calc", ⟨some false⟩)], ⟨none⟩⟩).2.1 rfl
    exact h
  · have h := (tool_disablement
      ⟨[⟨"search", none, []⟩, ⟨"calc", none, []⟩],
       some [("calc", ⟨some false⟩)], ⟨none⟩⟩
      [] [] ⟨[], none, ⟨none⟩⟩ "calc" "srv"
      ⟨"x", none, []⟩ ⟨[], none, ⟨none⟩⟩).2.2 (by decide) (by decide)
    exact h

/-! ### Claim C8: tool-metadata idempotence -/

/-- `upd_arg` preserves the key and is absorbed by its own output. -/
theorem upd_arg_idem (na : List (String × ArgSchema))
    (kv kv' : String × ArgSchema) (c : Bool)
    (h : upd_arg na kv = .ok (kv', c)) :
    kv'.1 = kv.1 ∧ upd_arg na kv' = .ok (kv', false) := by
  unfold upd_arg at h
  split at h
  · rename_i hf
    simp only [Except.ok.injEq, Prod.mk.injEq] at h
    obtain ⟨h1, -⟩ := h
    subst h1
    refine ⟨rfl, ?_⟩
    unfold upd_arg
    rw [hf]
  · rename_i nkv hf
    split at h
    · rename_i hd
      simp only [Except.ok.injEq, Prod.mk.injEq] at h
      obtain ⟨h1, -⟩ := h
      subst h1
      refine ⟨rfl, ?_⟩
      unfold upd_arg
      rw [hf]
      simp only [hd]
    · rename_i nd hd
      split at h
      · cases h
      · rename_i ld hld
        by_cases hne : ld ≠ nd
        · rw [if_pos hne] at h
          simp only [Except.ok.injEq, Prod.mk.injEq] at h
          obtain ⟨h1, -⟩ := h
          subst h1
          refine ⟨rfl, ?_⟩
          unfold upd_arg
          rw [hf]
          simp only [hd]
          simp
        · rw [if_neg hne] at h
          simp only [Except.ok.injEq, Prod.mk.injEq] at h
          obtain ⟨h1, -⟩ := h
          subst h1
          refine ⟨rfl, ?_⟩
          unfold upd_arg
          rw [hf]
          simp only [hd, hld]
          rw [if_neg hne]

/-- `update_args_description` is absorbed by its own output. -/
theorem update_args_description_idem (na : List (String × ArgSchema)) :
    ∀ (l l' : List (String × ArgSchema)) (c : Bool),
    update_args_description l na = .ok (l', c) →
    update_args_description l' na = .ok (l', false) := by
  intro l
  induction l with
  | nil =>
    intro l' c h
    unfold update_args_description at h
    simp only [Except.ok.injEq, Prod.mk.injEq] at h
    obtain ⟨h1, -⟩ := h
    subst h1
    rfl
  | cons kv rest ih =>
    intro l' c h
    unfold update_args_description at h
    cases h1 : upd_arg na kv with
    | error e =>
      rw [h1] at h
      cases h
    | ok pr =>
      rw [h1] at h
      cases h2 : update_args_description rest na with
      | error e =>
        rw [h2] at h
        cases h
      | ok pr2 =>
        rw [h2] at h
        simp only [Except.ok.injEq, Prod.mk.injEq] at h
        obtain ⟨hl, -⟩ := h
        subst hl
        have ha := upd_arg_idem na kv pr.1 pr.2 (by rw [h1])
        have hb := ih pr2.1 pr2.2 (by rw [h2])
        unfold update_args_description
        rw [ha.2, hb]
        rfl

/-- When the spec tool has no description, nothing changes. -/
theorem new_desc_value_none (t : SpecTool) (lt : McpTool)
    (hd : t.description = none) :
    new_tool_description t lt = lt.description := by
  unfold new_tool_description
  rw [hd]

/-- When the spec tool has a description, the matched tool ends up with
exactly it. -/
theorem new_desc_value_some (t : SpecTool) (lt : McpTool) (d : String)
    (hd : t.description = some d) :
    new_tool_description t lt = some d := by
  unfold new_tool_description
  rw [hd]
  show (if lt.description ≠ some d then some d else lt.description) = some d
  by_cases h : lt.description ≠ some d
  · rw [if_pos h]
  · rw [if_neg h]
    push_neg at h
    exact h

/-- A patched tool keeps its name. -/
theorem patched_tool_name (t : SpecTool) (lt : McpTool)
    (a : List (String × ArgSchema)) :
    (patched_tool t lt a).name = lt.name := rfl

/-- Patching an already patched tool changes nothing and raises no
change flag. -/
theorem patched_tool_idem (t : SpecTool) (lt : McpTool)
    (a : List (String × ArgSchema)) :
    patched_tool t (patched_tool t lt a) a = patched_tool t lt a
    ∧ tool_description_changed t (patched_tool t lt a) = false := by
  have habs : new_tool_description t (patched_tool t lt a)
      = new_tool_description t lt := by
    cases hd : t.description with
    | none =>
      rw [new_desc_value_none t (patched_tool t lt a) hd]
      rfl
    | some d =>
      rw [new_desc_value_some t (patched_tool t lt a) d hd,
        new_desc_value_some t lt d hd]
  constructor
  · show ({ patched_tool t lt a with
        description := new_tool_description t (patched_tool t lt a)
        args := a } : McpTool) = patched_tool t lt a
    rw [habs]
    rfl
  · cases hd : t.description with
    | none =>
      unfold tool_description_changed
      rw [hd]
    | some d =>
      unfold tool_description_changed
      rw [hd]
      show decide (new_tool_description t lt ≠ some d) = false
      rw [new_desc_value_some t lt d hd]
      simp

/-- `update_tool_in_locals` preserves the cached names and is absorbed
by its own output. -/
theorem update_tool_in_locals_idem (t : SpecTool) :
    ∀ (cached l' : List McpTool) (c : Bool),
    update_tool_in_locals t cached = .ok (l', c) →
    l'.map McpTool.name = cached.map McpTool.name
    ∧ update_tool_in_locals t l' = .ok (l', false) := by
  intro cached
  induction cached with
  | nil =>
    intro l' c h
    unfold update_tool_in_locals at h
    simp only [Except.ok.injEq, Prod.mk.injEq] at h
    obtain ⟨h1, -⟩ := h
    subst h1
    exact ⟨rfl, rfl⟩
  | cons lt rest ih =>
    intro l' c h
    unfold update_tool_in_locals at h
    by_cases hn : lt.name = t.name
    · rw [if_pos hn] at h
      split at h
      · cases h
      · rename_i args' c2 hargs
        simp only [Except.ok.injEq, Prod.mk.injEq] at h
        obtain ⟨h1, -⟩ := h
        subst h1
        refine ⟨rfl, ?_⟩
        have hname : (patched_tool t lt args').name = t.name := hn
        have hargs2 := update_args_description_idem t.args lt.args args' c2 hargs
        have harg3 : update_args_description (patched_tool t lt args').args
            t.args = .ok (args', false) := hargs2
        have hp := patched_tool_idem t lt args'
        simp only [update_tool_in_locals, hname, eq_self_iff_true, if_true,
          harg3, hp.1, hp.2, Bool.false_or, Bool.or_false]
    · rw [if_neg hn] at h
      split at h
      · cases h
      · rename_i rest' c' hrest
        simp only [Except.ok.injEq, Prod.mk.injEq] at h
        obtain ⟨h1, -⟩ := h
        subst h1
        obtain ⟨hnames, hidem⟩ := ih rest' c' hrest
        constructor
        · simp only [List.map_cons, hnames]
        · unfold update_tool_in_locals
          rw [if_neg hn, hidem]

/-- A tool that `update_tool_in_locals` leaves fixed stays fixed after an
update for a spec tool with a different name runs over the list. -/
theorem update_tool_stable (t u : SpecTool) (hn : ¬ t.name = u.name) :
    ∀ (cached l' : List McpTool) (c : Bool),
    update_tool_in_locals t cached = .ok (cached, false) →
    update_tool_in_locals u cached = .ok (l', c) →
    update_tool_in_locals t l' = .ok (l', false) := by
  intro cached
  induction cached with
  | nil =>
    intro l' c _ hu
    unfold update_tool_in_locals at hu
    simp only [Except.ok.injEq, Prod.mk.injEq] at hu
    obtain ⟨h1, -⟩ := hu
    subst h1
    rfl
  | cons x xs ih =>
    intro l' c ht hu
    unfold update_tool_in_locals at ht hu
    by_cases hxt : x.name = t.name
    · rw [if_pos hxt] at ht
      have hxu : ¬ x.name = u.name := by rw [hxt]; exact hn
      rw [if_neg hxu] at hu
      split at ht
      · cases ht
      · rename_i args' c2 hargs
        simp only [Except.ok.injEq, Prod.mk.injEq, List.cons.injEq] at ht
        obtain ⟨⟨hhead, -⟩, hflag⟩ := ht
        split at hu
        · cases hu
        · rename_i xs' cu hxs
          simp only [Except.ok.injEq, Prod.mk.injEq] at hu
          obtain ⟨h1, -⟩ := hu
          subst h1
          simp only [update_tool_in_locals, hxt, eq_self_iff_true, if_true,
            hargs, hhead, hflag]
    · rw [if_neg hxt] at ht
      split at ht
      · cases ht
      · rename_i xs_t ct hrec
        simp only [Except.ok.injEq, Prod.mk.injEq, List.cons.injEq] at ht
        obtain ⟨⟨-, hxs_t⟩, hct⟩ := ht
        subst hxs_t
        subst hct
        by_cases hxu : x.name = u.name
        · rw [if_pos hxu] at hu
          split at hu
          · cases hu
          · rename_i argsU cU hargsU
            simp only [Except.ok.injEq, Prod.mk.injEq] at hu
            obtain ⟨h1, -⟩ := hu
            subst h1
            have hname3 : (patched_tool u x argsU).name = x.name := rfl
            unfold update_tool_in_locals
            rw [if_neg (show ¬ (patched_tool u x argsU).name = t.name
              from hxt), hrec]
        · rw [if_neg hxu] at hu
          split at hu
          · cases hu
          · rename_i xs_u cu hrecU
            simp only [Except.ok.injEq, Prod.mk.injEq] at hu
            obtain ⟨h1, -⟩ := hu
            subst h1
            have hrest := ih xs_u cu hrec hrecU
            unfold update_tool_in_locals
            rw [if_neg hxt, hrest]

/-- A spec tool absorbed by the cached list remains absorbed after
updates for a batch of differently named spec tools. -/
theorem update_all_stable (t : SpecTool) :
    ∀ (rest : List SpecTool), t.name ∉ rest.map SpecTool.name →
    ∀ (cached l' : List McpTool) (c : Bool),
    update_tool_in_locals t cached = .ok (cached, false) →
    update_all_tools rest cached = .ok (l', c) →
    update_tool_in_locals t l' = .ok (l', false) := by
  intro rest
  induction rest with
  | nil =>
    intro _ cached l' c ht hall
    unfold update_all_tools at hall
    simp only [Except.ok.injEq, Prod.mk.injEq] at hall
    obtain ⟨h1, -⟩ := hall
    subst h1
    exact ht
  | cons u us ih =>
    intro hmem cached l' c ht hall
    simp only [List.map_cons, List.mem_cons] at hmem
    push_neg at hmem
    obtain ⟨hne, hmem'⟩ := hmem
    unfold update_all_tools at hall
    split at hall
    · cases hall
    · rename_i l1 c1 hu
      split at hall
      · cases hall
      · rename_i l2 c2 hrest
        simp only [Except.ok.injEq, Prod.mk.injEq] at hall
        obtain ⟨h1, -⟩ := hall
        subst h1
        have ht1 := update_tool_stable t u hne cached l1 c1 ht hu
        exact ih hmem' l1 l2 c2 ht1 hrest

/-- Running the whole spec-tool batch a second time over its own output
changes nothing, given pairwise distinct spec-tool names (an invariant of
the tool metadata model: tool names are unique within one source). -/
theorem update_all_tools_idem :
    ∀ (ts : List SpecTool) (cached l' : List McpTool) (c : Bool),
    (ts.map SpecTool.name).Nodup →
    update_all_tools ts cached = .ok (l', c) →
    update_all_tools ts l' = .ok (l', false) := by
  intro ts
  induction ts with
  | nil =>
    intro cached l' c _ h
    unfold update_all_tools at h
    simp only [Except.ok.injEq, Prod.mk.injEq] at h
    obtain ⟨h1, -⟩ := h
    subst h1
    rfl
  | cons t rest ih =>
    intro cached l' c hnd h
    simp only [List.map_cons, List.nodup_cons] at hnd
    obtain ⟨hnotin, hnd'⟩ := hnd
    unfold update_all_tools at h
    split at h
    · cases h
    · rename_i l1 c1 hT
      split at h
      · cases h
      · rename_i l2 c2 hR
        simp only [Except.ok.injEq, Prod.mk.injEq] at h
        obtain ⟨h1, -⟩ := h
        subst h1
        have hTidem := (update_tool_in_locals_idem t cached l1 c1 hT).2
        have hTfix := update_all_stable t rest hnotin l1 l2 c2 hTidem hR
        have hRidem := ih l1 l2 c2 hnd' hR
        unfold update_all_tools
        simp only [hTfix, hRidem, Bool.false_or]

/-- `_check_tools_changed` specialized to a present tool spec. -/
theorem check_tools_changed_eq (s : MCPClientState)
    (d : McpServerDetailInfo) (ts : McpToolSpec)
    (hts : d.toolSpec = some ts) :
    check_tools_changed s d
      = match ts.tools with
        | none => false
        | some _ => decide (ts.toolsMeta ≠ s.tools_meta) := by
  unfold check_tools_changed
  rw [hts]

/-- **C8, counterexample.**  The tool spec
`{tools: [], toolsMeta: None}` pushed twice: the cached metadata is the
empty dict after the first application, but python's
`tool_spec.toolsMeta != self._tools_meta` compares `None` against `{}`,
so the *second, content-identical* application still reports
`changed == True`, and the subscription callback re-notifies attached
toolkits.  (Since the first application leaves the state unchanged, the
single equation below is both the first and the second application.) -/
theorem update_tools_identical_twice_changed :
    update_tools ⟨[], some [], ⟨some ⟨some [], none⟩⟩⟩ ⟨some ⟨some [], none⟩⟩
        = .ok (true, ⟨[], some [], ⟨some ⟨some [], none⟩⟩⟩)
    ∧ subscription_callback_notifies true true = true :=
  ⟨rfl, rfl⟩

/-- **C8 (amended).**  When the pushed `toolSpec.toolsMeta` is present
(not `None`) and spec-tool names are unique (the data model's invariant),
applying `update_tools` a second time with content identical to the first
application yields `changed == false` and an unchanged state, so the
subscription callback notifies no toolkit; with `toolsMeta = None` the
second application reports `changed == true` again (see the
counterexample). -/
theorem update_tools_second_push (st s1 : MCPClientState)
    (d : McpServerDetailInfo) (ts : McpToolSpec) (m : ToolsMeta)
    (c1 : Bool) (b : Bool) (hts : d.toolSpec = some ts)
    (hm : ts.toolsMeta = some m)
    (hnd : ∀ l, ts.tools = some l → (l.map SpecTool.name).Nodup)
    (h1 : update_tools st d = .ok (c1, s1)) :
    update_tools s1 d = .ok (false, s1)
    ∧ subscription_callback_notifies false b = false := by
  refine ⟨?_, rfl⟩
  obtain ⟨dts⟩ := d
  have hts2 : dts = some ts := hts
  subst hts2
  obtain ⟨tsTools, tsMeta⟩ := ts
  have hm2 : tsMeta = some m := hm
  subst hm2
  cases tsTools with
  | none =>
    simp only [update_tools, Option.getD_some, Except.ok.injEq,
      Prod.mk.injEq] at h1
    obtain ⟨-, hs1⟩ := h1
    simp only [update_tools, Option.getD_some, check_tools_changed]
    rw [← hs1]
  | some l =>
    simp only [update_tools, Option.getD_some] at h1
    cases hall : update_all_tools l st.tools with
    | error e =>
      rw [hall] at h1
      cases h1
    | ok pr =>
      rw [hall] at h1
      simp only [Except.ok.injEq, Prod.mk.injEq] at h1
      obtain ⟨-, hs1⟩ := h1
      have hidem := update_all_tools_idem l st.tools pr.1 pr.2
        (hnd l rfl) (by rw [hall])
      have hmeta : s1.tools_meta = some m := by rw [← hs1]
      have htl : s1.tools = pr.1 := by rw [← hs1]
      have hdec : decide ((some m : Option ToolsMeta) ≠ some m) = false :=
        decide_eq_false fun a => a rfl
      simp only [update_tools, Option.getD_some, check_tools_changed,
        hmeta, htl, hidem, hdec,
        Bool.false_or, Except.ok.injEq, Prod.mk.injEq]
      refine ⟨trivial, ?_⟩
      rw [← hs1]

/-- Closed witness for `update_tools_second_push`: one cached tool `a`,
a pushed spec with a present `toolsMeta` enabling `a` and a new
description; the first application changes state, the second reports
`changed == false` and leaves the state alone, so no toolkit is
notified. -/
theorem update_tools_second_push_witness :
    update_tools
      ⟨[⟨"a", some "d", []⟩], some [("a", ⟨some true⟩)],
       ⟨some ⟨some [⟨"a", some "d", []⟩], some [("a", ⟨some true⟩)]⟩⟩⟩
      ⟨some ⟨some [⟨"a", some "d", []⟩], some [("a", ⟨some true⟩)]⟩⟩
      = .ok (false,
        ⟨[⟨"a", some "d", []⟩], some [("a", ⟨some true⟩)],
         ⟨some ⟨some [⟨"a", some "d", []⟩], some [("a", ⟨some true⟩)]⟩⟩⟩)
    ∧ subscription_callback_notifies false true = false := by
  exact update_tools_second_push
    ⟨[⟨"a", none, []⟩], some [],
     ⟨some ⟨some [⟨"a", some "d", []⟩], some [("a", ⟨some true⟩)]⟩⟩⟩
    ⟨[⟨"a", some "d", []⟩], some [("a", ⟨some true⟩)],
     ⟨some ⟨some [⟨"a", some "d", []⟩], some [("a", ⟨some true⟩)]⟩⟩⟩
    ⟨some ⟨some [⟨"a", some "d", []⟩], some [("a", ⟨some true⟩)]⟩⟩
    ⟨some [⟨"a", some "d", []⟩], some [("a", ⟨some true⟩)]⟩
    [("a", ⟨some true⟩)] true true rfl rfl
    (fun l hl => by cases hl; decide)
    rfl

/-! ### Claim C6: reply error conversion -/

/-- `_construct_msg_from_task_status` raises `NameError` on every input:
with a status message it calls `_convert_a2a_message_to_msg`, whose
first statement uses the unimported `OrderedDict`; without one it
reaches the unimported `TextBlock`. -/
theorem construct_msg_errors (agentName : String) (t : A2ATask) :
    ∃ e, construct_msg_from_task_status agentName t = Except.error e := by
  unfold construct_msg_from_task_status
  cases t.status.message with
  | none => exact ⟨nameErr "TextBlock", rfl⟩
  | some am => exact ⟨nameErr "OrderedDict", rfl⟩

/-- Processing the response stream: an empty stream leaves `response_msg
= None`; any item raises at its first inbound conversion. -/
theorem run_stream_items_spec (agentName : String) (acc : Option Msg)
    (items : List StreamItem) :
    (items = [] ∧ run_stream_items agentName acc items = Except.ok acc)
    ∨ ∃ e, run_stream_items agentName acc items = Except.error e := by
  cases items with
  | nil => exact Or.inl ⟨rfl, rfl⟩
  | cons item rest =>
    refine Or.inr ?_
    cases item with
    | message am => exact ⟨nameErr "OrderedDict", rfl⟩
    | taskPair t =>
      obtain ⟨e, he⟩ := construct_msg_errors agentName t
      refine ⟨e, ?_⟩
      simp only [run_stream_items, process_stream_item, he]

/-- **C6 (code bug).**  The claim matches `reply`'s documented intent
("If an error occurs during communication, returns an error message"),
but the code cannot do it: the `except Exception` handler
(a2a_agent.py line 385) and the `finally` block (line 400) construct
`TextBlock`, which the module never imports.  With a non-empty input,
every ending of the response stream — a raised transport error, a
normal end (with or without items, since every inbound conversion
itself raises `NameError`), and even cancellation, whose re-raised
`CancelledError` the raising `finally` replaces — makes `reply` raise
`NameError` instead of returning an error-marked message, and the
observed-messages list is never cleared. -/
theorem reply_raises_nameerror (agentName fresh : String)
    (observed input : List Msg) (items : List StreamItem)
    (ending : StreamEnd)
    (hne : (observed ++ input).isEmpty = false) :
    (reply_turn agentName fresh observed input items ending).2.1
        = ReplyOutcome.raisedPy (nameErr "TextBlock")
    ∧ (∀ m, (reply_turn agentName fresh observed input items ending).2.1
        ≠ ReplyOutcome.returned m)
    ∧ (reply_turn agentName fresh observed input items ending).2.2
        = observed := by
  have hmain : reply_turn agentName fresh observed input items ending
      = (some (convert_msgs_to_a2a_message fresh (observed ++ input)),
         ReplyOutcome.raisedPy (nameErr "TextBlock"), observed) := by
    unfold reply_turn
    rw [hne]
    rcases run_stream_items_spec agentName none items with ⟨hitems, -⟩ | ⟨e, herr⟩
    · subst hitems
      cases ending with
      | done => rfl
      | errored et etxt => rfl
      | cancelled => rfl
    · simp only [Bool.false_eq_true, if_false, consume_stream, herr]
  rw [hmain]
  exact ⟨rfl, fun m hm => ReplyOutcome.noConfusion hm, rfl⟩

/-- Closed witness for `reply_raises_nameerror`: one concrete input
message and a stream raising a transport error. -/
theorem reply_raises_nameerror_witness :
    (reply_turn "agent" "f1" []
        [{ id := "m1", name := "user", content := .str "hi", role := "user", metadata := none }]
        [] (.errored "ConnectError" "boom")).2.1
      = ReplyOutcome.raisedPy (nameErr "TextBlock") := by
  exact (reply_raises_nameerror "agent" "f1" []
    [{ id := "m1", name := "user", content := .str "hi", role := "user", metadata := none }]
    [] (.errored "ConnectError" "boom") rfl).1

/-! ### Claim C1: session id stickiness -/

/-- **C1, counterexample.**  A first `reply` whose response stream
carries a task with `task_id = T1, context_id = C1`: the call builds
and sends its outbound message, then raises `NameError` while
converting the task status (`TextBlock` is unimported), leaving the
observed list untouched.  A second `reply` in the same session: its
outbound message does *not* carry the received ids — its `task_id` and
`context_id` are `None`.  The code never stores or attaches session
ids, contradicting the claimed stickiness. -/
theorem session_ids_not_sticky :
    (let m1 : Msg :=
       { id := "m1", name := "user", content := .str "hi", role := "user", metadata := none }
     let t1 : A2ATask :=
       { id := "T1", context_id := "C1", status := { state := .working, message := none }, artifacts := none }
     let turn1 := reply_turn "agent" "f1" [] [m1] [.taskPair t1] .done
     let m2 : Msg :=
       { id := "m2", name := "user", content := .str "again", role := "user", metadata := none }
     let turn2 := reply_turn "agent" "f2" turn1.2.2 [m2] [] .done
     ∃ out1 out2, turn1.1 = some out1
       ∧ turn1.2.1 = ReplyOutcome.raisedPy (nameErr "TextBlock")
       ∧ turn2.1 = some out2
       ∧ out2.task_id ≠ some "T1" ∧ out2.context_id ≠ some "C1") := by
  refine ⟨_, _, rfl, rfl, rfl, ?_, ?_⟩ <;> intro h0 <;> cases h0

/-- **C1 (amended).**  The local side never sets session ids at all:
every outbound A2A message `reply` builds — and
`_convert_msgs_to_a2a_message` in general — carries `task_id = None`
and `context_id = None`, whatever was previously received; task and
context ids observed in responses are not stored anywhere (the agent's
only conversation state is the observed-messages list). -/
theorem outbound_session_ids_none (fresh : String) (msgs : List Msg)
    (agentName fr2 : String) (observed input : List Msg)
    (items : List StreamItem) (ending : StreamEnd) (out : A2aOutMessage)
    (h : (reply_turn agentName fr2 observed input items ending).1 = some out) :
    (convert_msgs_to_a2a_message fresh msgs).task_id = none
    ∧ (convert_msgs_to_a2a_message fresh msgs).context_id = none
    ∧ out.task_id = none ∧ out.context_id = none := by
  refine ⟨rfl, rfl, ?_⟩
  unfold reply_turn at h
  cases he : (observed ++ input).isEmpty with
  | true =>
    rw [he] at h
    simp only [if_pos rfl] at h
    cases h
  | false =>
    rw [he] at h
    simp only [Bool.false_eq_true, if_false] at h
    split at h
    all_goals simp only [Option.some.injEq] at h
    all_goals cases h
    all_goals exact ⟨rfl, rfl⟩

/-- Closed witness for `outbound_session_ids_none`, applied to a
concrete one-message turn. -/
theorem outbound_session_ids_none_witness :
    (convert_msgs_to_a2a_message "f0" []).task_id = none
    ∧ (convert_msgs_to_a2a_message "f0" []).context_id = none
    ∧ (convert_msgs_to_a2a_message "f1"
        [{ id := "m1", name := "user", content := .str "hi", role := "user", metadata := none }]).task_id = none
    ∧ (convert_msgs_to_a2a_message "f1"
        [{ id := "m1", name := "user", content := .str "hi", role := "user", metadata := none }]).context_id = none := by
  have h := outbound_session_ids_none "f0" [] "agent" "f1" []
    [{ id := "m1", name := "user", content := .str "hi", role := "user", metadata := none }]
    [] .done (convert_msgs_to_a2a_message "f1"
      [{ id := "m1", name := "user", content := .str "hi", role := "user", metadata := none }]) rfl
  exact ⟨h.1, h.2.1, h.2.2.1, h.2.2.2⟩

/-! ### Claim C3: AsyncRWLock admission -/

/-- **C3, counterexample.**  A reader *is* admitted while a writer is
waiting: from the fresh lock, one reader acquires, a writer requests
(and must wait since `readers = 1`), a second reader requests and is
granted — `acquire_read` only checks `self._writers > 0`, not the
writer wait set.  This refutes the claim's clause that a reader is not
admitted while any writer is waiting for the lock. -/
theorem rwlock_reader_overtakes_waiting_writer :
    RWReachable ⟨1, 0, 1, 1⟩
    ∧ RWStep ⟨1, 0, 1, 1⟩ ⟨2, 0, 0, 1⟩
    ∧ (⟨1, 0, 1, 1⟩ : RWState).waitingWriters = 1
    ∧ (⟨2, 0, 0, 1⟩ : RWState).readers = 2 := by
  have h0 : RWReachable ⟨0, 0, 0, 0⟩ := RWReachable.init
  have h1 : RWReachable ⟨0, 0, 1, 0⟩ :=
    RWReachable.step _ _ h0 (RWStep.reqRead _)
  have h2 : RWReachable ⟨1, 0, 0, 0⟩ :=
    RWReachable.step _ _ h1 (RWStep.grantRead _ rfl (by decide))
  have h3 : RWReachable ⟨1, 0, 0, 1⟩ :=
    RWReachable.step _ _ h2 (RWStep.reqWrite _)
  have h4 : RWReachable ⟨1, 0, 1, 1⟩ :=
    RWReachable.step _ _ h3 (RWStep.reqRead _)
  exact ⟨h4, RWStep.grantRead _ rfl (by decide), rfl, rfl⟩

/-- **C3 (amended).**  The write side of the claim holds: in every
reachable state at most one writer holds the lock and a held write lock
excludes all readers; moreover a reader is admitted only while no writer
*holds* the lock, and a writer only while no reader and no writer holds
it.  (A waiting writer does not block new readers — see the
counterexample.) -/
theorem rwlock_admission (s : RWState) (h : RWReachable s) :
    (s.writers ≤ 1 ∧ (0 < s.writers → s.readers = 0))
    ∧ (∀ s', RWStep s s' → s.readers < s'.readers → s.writers = 0)
    ∧ (∀ s', RWStep s s' → s.writers < s'.writers →
        s.readers = 0 ∧ s.writers = 0) := by
  refine ⟨?_, ?_, ?_⟩
  · induction h with
    | init => exact ⟨by decide, fun h0 => by cases h0⟩
    | step t t' ht hstep ih =>
      obtain ⟨ih1, ih2⟩ := ih
      cases hstep with
      | reqRead => exact ⟨ih1, ih2⟩
      | grantRead hw hq =>
        refine ⟨?_, ?_⟩
        · show t.writers ≤ 1
          omega
        · show 0 < t.writers → t.readers + 1 = 0
          intro hgt
          omega
      | releaseRead h0 =>
        refine ⟨ih1, ?_⟩
        show 0 < t.writers → t.readers - 1 = 0
        intro hgt
        have := ih2 hgt
        omega
      | reqWrite => exact ⟨ih1, ih2⟩
      | grantWrite hr hw hq =>
        refine ⟨?_, ?_⟩
        · show t.writers + 1 ≤ 1
          omega
        · intro _
          exact hr
      | releaseWrite h0 =>
        refine ⟨?_, ?_⟩
        · show t.writers - 1 ≤ 1
          omega
        · show 0 < t.writers - 1 → t.readers = 0
          intro hgt
          exact ih2 (by omega)
  · intro s' hstep hinc
    cases hstep with
    | reqRead => exact absurd hinc (by simp)
    | grantRead hw hq => exact hw
    | releaseRead h0 => exact absurd hinc (by simp)
    | reqWrite => exact absurd hinc (by simp)
    | grantWrite hr hw hq => exact absurd hinc (by simp)
    | releaseWrite h0 => exact absurd hinc (by simp)
  · intro s' hstep hinc
    cases hstep with
    | reqRead => exact absurd hinc (by simp)
    | grantRead hw hq => exact absurd hinc (by simp)
    | releaseRead h0 => exact absurd hinc (by simp)
    | reqWrite => exact absurd hinc (by simp)
    | grantWrite hr hw hq => exact ⟨hr, hw⟩
    | releaseWrite h0 => exact absurd hinc (by simp)

/-- Closed witness for `rwlock_admission` at the state with one held
read lock. -/
theorem rwlock_admission_witness :
    ((⟨1, 0, 0, 0⟩ : RWState).writers ≤ 1
      ∧ (0 < (⟨1, 0, 0, 0⟩ : RWState).writers
          → (⟨1, 0, 0, 0⟩ : RWState).readers = 0)) := by
  have h1 : RWReachable ⟨0, 0, 1, 0⟩ :=
    RWReachable.step _ _ RWReachable.init (RWStep.reqRead _)
  have h2 : RWReachable ⟨1, 0, 0, 0⟩ :=
    RWReachable.step _ _ h1 (RWStep.grantRead _ rfl (by decide))
  exact (rwlock_admission ⟨1, 0, 0, 0⟩ h2).1

/-! ### Claim C2: idempotent lazy initialization -/

/-- Case split for a hypothesis about an updated program counter. -/
theorem update_pc_cases {n : Nat} {f : Fin n → InitPC} {i j : Fin n}
    {v pc : InitPC} (h : Function.update f i v j = pc) :
    (j = i ∧ pc = v) ∨ (j ≠ i ∧ f j = pc) := by
  by_cases hij : j = i
  · subst hij
    rw [Function.update_same] at h
    exact Or.inl ⟨rfl, h.symm⟩
  · rw [Function.update_noteq hij] at h
    exact Or.inr ⟨hij, h⟩

/-- The invariant holds in every reachable state of the cannot-fail
system. -/
theorem init_inv_reachable (n : Nat) (s : InitState n)
    (h : InitReachable false n s) : InitInv s := by
  induction h with
  | init =>
    refine ⟨Nat.zero_le 1, ?_, ?_, ?_, ?_, ?_, ?_, ?_, ?_⟩
    · constructor
      · intro h0
        cases h0
      · rintro ⟨i, hi⟩
        cases hi
    · intro i hi
      cases hi
    · intro i hi
      cases hi
    · intro i hi
      cases hi
    · intro i hi
      cases hi
    · intro h0
      exact absurd h0 (Nat.not_succ_le_zero 0)
    · intro h0
      cases h0
    · intro i hi
      cases hi
  | step s s' hr hstep ih =>
    cases hstep with
    | startInitialized i hpc hinit =>
      refine ⟨ih.execLe, ?_, ?_, ?_, ?_, ?_, ih.execFlag, ih.initExec, ?_⟩
      · constructor
        · intro h0
          obtain ⟨j, hj⟩ := ih.ingIff.mp h0
          have hji : j ≠ i := by
            intro he
            rw [he, hpc] at hj
            cases hj
          refine ⟨j, ?_⟩
          show Function.update s.pcs i _ j = InitPC.inBody
          rw [Function.update_noteq hji]
          exact hj
        · rintro ⟨j, hj⟩
          rcases update_pc_cases hj with ⟨-, hv⟩ | ⟨-, hv⟩
          · cases hv
          · exact ih.ingIff.mpr ⟨j, hv⟩
      · intro j hj
        rcases update_pc_cases hj with ⟨-, hv⟩ | ⟨-, hv⟩
        · cases hv
        · exact ih.bodyLock j hv
      · intro j hj
        have hb := ih.lockBody j hj
        have hji : j ≠ i := by
          intro he
          rw [he, hpc] at hb
          cases hb
        show Function.update s.pcs i _ j = InitPC.inBody
        rw [Function.update_noteq hji]
        exact hb
      · intro j _
        exact hinit
      · intro j hj
        rcases update_pc_cases hj with ⟨-, hv⟩ | ⟨-, hv⟩
        · cases hv
        · exact ih.pollInv j hv
      · intro j hj
        rcases update_pc_cases hj with ⟨-, hv⟩ | ⟨-, hv⟩
        · cases hv
        · exact ih.bodyExec j hv
    | startPoll i hpc hinit hing =>
      refine ⟨ih.execLe, ?_, ?_, ?_, ?_, ?_, ih.execFlag, ih.initExec, ?_⟩
      · constructor
        · intro h0
          obtain ⟨j, hj⟩ := ih.ingIff.mp h0
          have hji : j ≠ i := by
            intro he
            rw [he, hpc] at hj
            cases hj
          refine ⟨j, ?_⟩
          show Function.update s.pcs i _ j = InitPC.inBody
          rw [Function.update_noteq hji]
          exact hj
        · rintro ⟨j, hj⟩
          rcases update_pc_cases hj with ⟨-, hv⟩ | ⟨-, hv⟩
          · cases hv
          · exact ih.ingIff.mpr ⟨j, hv⟩
      · intro j hj
        rcases update_pc_cases hj with ⟨-, hv⟩ | ⟨-, hv⟩
        · cases hv
        · exact ih.bodyLock j hv
      · intro j hj
        have hb := ih.lockBody j hj
        have hji : j ≠ i := by
          intro he
          rw [he, hpc] at hb
          cases hb
        show Function.update s.pcs i _ j = InitPC.inBody
        rw [Function.update_noteq hji]
        exact hb
      · intro j hj
        rcases update_pc_cases hj with ⟨-, hv⟩ | ⟨-, hv⟩
        · cases hv
        · exact ih.retInit j hv
      · intro j hj
        rcases update_pc_cases hj with ⟨-, hv⟩ | ⟨-, hv⟩
        · exact Or.inl hing
        · exact ih.pollInv j hv
      · intro j hj
        rcases update_pc_cases hj with ⟨-, hv⟩ | ⟨-, hv⟩
        · cases hv
        · exact ih.bodyExec j hv
    | startRun i hpc hinit hing hlock =>
      have hexec0 : s.execCount = 0 := by
        by_contra h0
        have h1 : 1 ≤ s.execCount := by omega
        rcases ih.execFlag h1 with h2 | h2
        · rw [hinit] at h2
          cases h2
        · rw [hing] at h2
          cases h2
      refine ⟨show s.execCount + 1 ≤ 1 by omega, ?_, ?_, ?_, ?_, ?_, ?_, ?_, ?_⟩
      · constructor
        · intro _
          refine ⟨i, ?_⟩
          show Function.update s.pcs i InitPC.inBody i = InitPC.inBody
          rw [Function.update_same]
        · intro _
          rfl
      · intro j hj
        rcases update_pc_cases hj with ⟨he, -⟩ | ⟨-, hv⟩
        · rw [he]
        · have h2 := ih.ingIff.mpr ⟨j, hv⟩
          rw [hing] at h2
          cases h2
      · intro j hj
        have h2 : some i = some j := hj
        injection h2 with h3
        subst h3
        show Function.update s.pcs i InitPC.inBody i = InitPC.inBody
        rw [Function.update_same]
      · intro j hj
        rcases update_pc_cases hj with ⟨-, hv⟩ | ⟨-, hv⟩
        · cases hv
        · have h2 := ih.retInit j hv
          rw [hinit] at h2
          cases h2
      · intro j _
        exact Or.inl rfl
      · intro _
        exact Or.inr rfl
      · intro h0
        have h1 : s.initialized = true := h0
        rw [hinit] at h1
        cases h1
      · intro j _
        show 1 ≤ s.execCount + 1
        omega
    | pollWake i hpc hing =>
      have hini : s.initialized = true := by
        rcases ih.pollInv i hpc with h0 | h0
        · rw [hing] at h0
          cases h0
        · exact h0
      refine ⟨ih.execLe, ?_, ?_, ?_, ?_, ?_, ih.execFlag, ih.initExec, ?_⟩
      · constructor
        · intro h0
          obtain ⟨j, hj⟩ := ih.ingIff.mp h0
          have hji : j ≠ i := by
            intro he
            rw [he, hpc] at hj
            cases hj
          refine ⟨j, ?_⟩
          show Function.update s.pcs i _ j = InitPC.inBody
          rw [Function.update_noteq hji]
          exact hj
        · rintro ⟨j, hj⟩
          rcases update_pc_cases hj with ⟨-, hv⟩ | ⟨-, hv⟩
          · cases hv
          · exact ih.ingIff.mpr ⟨j, hv⟩
      · intro j hj
        rcases update_pc_cases hj with ⟨-, hv⟩ | ⟨-, hv⟩
        · cases hv
        · exact ih.bodyLock j hv
      · intro j hj
        have hb := ih.lockBody j hj
        have hji : j ≠ i := by
          intro he
          rw [he, hpc] at hb
          cases hb
        show Function.update s.pcs i _ j = InitPC.inBody
        rw [Function.update_noteq hji]
        exact hb
      · intro j _
        exact hini
      · intro j hj
        rcases update_pc_cases hj with ⟨-, hv⟩ | ⟨-, hv⟩
        · cases hv
        · exact ih.pollInv j hv
      · intro j hj
        rcases update_pc_cases hj with ⟨-, hv⟩ | ⟨-, hv⟩
        · cases hv
        · exact ih.bodyExec j hv
    | bodyOk i hpc hlock =>
      have hex1 : 1 ≤ s.execCount := ih.bodyExec i hpc
      refine ⟨ih.execLe, ?_, ?_, ?_, ?_, ?_, ?_, ?_, ?_⟩
      · constructor
        · intro h0
          cases h0
        · rintro ⟨j, hj⟩
          rcases update_pc_cases hj with ⟨-, hv⟩ | ⟨hji, hv⟩
          · cases hv
          · have h2 := ih.bodyLock j hv
            rw [hlock] at h2
            exact absurd ((Option.some.injEq i j).mp h2).symm hji
      · intro j hj
        rcases update_pc_cases hj with ⟨-, hv⟩ | ⟨hji, hv⟩
        · cases hv
        · have h2 := ih.bodyLock j hv
          rw [hlock] at h2
          exact absurd ((Option.some.injEq i j).mp h2).symm hji
      · intro j hj
        cases hj
      · intro j _
        rfl
      · intro j hj
        rcases update_pc_cases hj with ⟨-, hv⟩ | ⟨-, hv⟩
        · cases hv
        · exact Or.inr rfl
      · intro _
        exact Or.inl rfl
      · intro _
        show s.execCount = 1
        have h2 := ih.execLe
        omega
      · intro j _
        exact hex1
    | bodyFail i hcf hpc hlock =>
      exact Bool.noConfusion hcf

/-- **C2 (amended).**  When the initialization body succeeds, `n`
concurrent `_ensure_initialized` calls enter `_async_init` at most once
(`execCount ≤ 1` in every reachable state) and exactly once from the
moment initialization completed; every caller that has returned did so
only after that single execution set `initialized`.  Uncontended
`asyncio.Lock.acquire` never suspends, so callers never queue on the
mutex: a concurrent caller either runs the body itself or poll-waits
on the `initializing` flag.  On failure, the executing caller resets
`initializing`, releases the mutex, leaves `initialized` unchanged
(false) and re-raises (the `bodyFail` step) — but the error reaches
that caller only: as the counterexample's trace shows, a concurrent
poll-loop waiter then observes `initializing == False` and returns
normally, so the claim's `all K callers return (or all raise the same
propagated error)` fails. -/
theorem ensure_initialized_single_execution (n : Nat) (s : InitState n)
    (h : InitReachable false n s) :
    s.execCount ≤ 1
    ∧ (∀ i, s.pcs i = InitPC.doneReturned → s.initialized = true)
    ∧ (s.initialized = true → s.execCount = 1)
    ∧ (∀ (u u' : InitState n) (i : Fin n), InitStep true u u' →
        u'.pcs i = InitPC.doneRaised → u.pcs i ≠ InitPC.doneRaised →
        u'.initialized = u.initialized ∧ u'.initializing = false) := by
  have hi := init_inv_reachable n s h
  refine ⟨hi.execLe, hi.retInit, hi.initExec, ?_⟩
  intro u u' i hstep hpc' hpc
  cases hstep with
  | startInitialized j hj1 hj2 =>
    rcases update_pc_cases hpc' with ⟨-, hv⟩ | ⟨-, hv⟩
    · cases hv
    · exact absurd hv hpc
  | startPoll j hj1 hj2 hj3 =>
    rcases update_pc_cases hpc' with ⟨-, hv⟩ | ⟨-, hv⟩
    · cases hv
    · exact absurd hv hpc
  | startRun j hj1 hj2 hj3 hj4 =>
    rcases update_pc_cases hpc' with ⟨-, hv⟩ | ⟨-, hv⟩
    · cases hv
    · exact absurd hv hpc
  | pollWake j hj1 hj2 =>
    rcases update_pc_cases hpc' with ⟨-, hv⟩ | ⟨-, hv⟩
    · cases hv
    · exact absurd hv hpc
  | bodyOk j hj1 hj2 =>
    rcases update_pc_cases hpc' with ⟨-, hv⟩ | ⟨-, hv⟩
    · cases hv
    · exact absurd hv hpc
  | bodyFail j hcf hj1 hj2 =>
    exact ⟨rfl, rfl⟩

/-- Closed witness for `ensure_initialized_single_execution` at the
fresh one-caller system. -/
theorem ensure_initialized_single_execution_witness :
    (initState 1).execCount ≤ 1
    ∧ ((initState 1).initialized = true → (initState 1).execCount = 1) := by
  have h := ensure_initialized_single_execution 1 (initState 1)
    InitReachable.init
  exact ⟨h.1, h.2.2.1⟩

/-- **C2, counterexample.**  With a failing body, two concurrent calls
end with *mixed* outcomes: caller 0 runs `_async_init` (one execution);
caller 1 arrives during the body, sees `initializing == True` and
enters the poll loop; the body fails, re-raising to caller 0 alone and
clearing both flags; caller 1's poll loop then observes `initializing
== False` and returns *normally*, although initialization never
completed.  Final state: caller 0 raised, caller 1 returned,
`initialized = false`, one execution — refuting `all K callers return
(or all raise the same propagated error) only after that single
execution completes`. -/
theorem ensure_initialized_mixed_outcomes :
    ∃ s : InitState 2, InitReachable true 2 s
      ∧ s.pcs 0 = InitPC.doneRaised
      ∧ s.pcs 1 = InitPC.doneReturned
      ∧ s.initialized = false
      ∧ s.execCount = 1 := by
  have h0 : InitReachable true 2 (initState 2) := InitReachable.init
  have h1 := InitReachable.step _ _ h0
    (InitStep.startRun (initState 2) 0 rfl rfl rfl rfl)
  have h2 := InitReachable.step _ _ h1
    (InitStep.startPoll _ 1 rfl rfl rfl)
  have h3 := InitReachable.step _ _ h2
    (InitStep.bodyFail _ 0 rfl rfl rfl)
  have h4 := InitReachable.step _ _ h3
    (InitStep.pollWake _ 1 rfl rfl)
  exact ⟨_, h4, rfl, rfl, rfl, rfl⟩
